import Mathlib

/-!
# Verification of the Clustro ingestion core

A shallow embedding, in Lean 4, of the parts of the Clustro repository that the
specification's testable claims are about:

* `backend/sql/semantic_attribute_matcher.py` — attribute normalization,
  synonym groups, tokenization, `SequenceMatcher`-based similarity, and the
  greedy attribute matching procedure;
* `backend/sql/schema_evolution_engine.py` — candidate retrieval and the
  schema-evolution decision rules;
* `backend/sql/sql_executor.py` — column type inference;
* `backend/sql/file_classifier.py` — the SQL/NoSQL structure classifier;
* `backend/nosql_processor/main.py` — the character chunker and chunk
  document generation;
* `backend/nosql_ingestion_pipeline/pipeline.py` — summary building and the
  embedding-writing step of text-file ingestion.

Python strings are modelled as Lean `String` / `List Char`; lower-casing is
modelled on the ASCII range (`A`–`Z`), which is all the proved properties
depend on.  Python floats are modelled as exact rationals `ℚ`.  External
effects (file reads, database and vector-store round trips, library parsers)
are modelled as explicit inputs carrying their outcomes, and Python
exceptions as `Except`.
-/

namespace Clustro



/-! ## Python-style character and string helpers -/

/-- ASCII lower-casing, as applied by `str.lower` to the characters that
survive normalization. -/

def pyLowerChar (c : Char) : Char :=
  if 65 ≤ c.toNat ∧ c.toNat ≤ 90 then Char.ofNat (c.toNat + 32) else c

/-- Characters matched by the regex class `[a-z0-9_]` of
`normalize_attribute` (`semantic_attribute_matcher.py`). -/

def allowedChar (c : Char) : Bool :=
  ((97 ≤ c.toNat && c.toNat ≤ 122) || (48 ≤ c.toNat && c.toNat ≤ 57)) || c == '_'

/-- Worker for `subRuns`: the boolean records whether the previous character
was part of a run being replaced. -/

def subRunsAux (p : Char → Bool) : List Char → Bool → List Char
  | [], _ => []
  | c :: cs, inRun =>
    if p c then
      if inRun then subRunsAux p cs true
      else '_' :: subRunsAux p cs true
    else c :: subRunsAux p cs false

/-- `re.sub(p+, '_', l)`: every maximal run of characters satisfying `p` is
replaced by a single underscore. -/

def subRuns (p : Char → Bool) (l : List Char) : List Char :=
  subRunsAux p l false

/-- Python `str.strip('_')`. -/

def stripUnderscore (l : List Char) : List Char :=
  ((l.dropWhile (· == '_')).reverse.dropWhile (· == '_')).reverse

/-- The character-level pipeline of `normalize_attribute`: lower-case,
replace runs of characters outside `[a-z0-9_]` by `_`, collapse runs of `_`,
strip `_` from both ends. -/

def normChars (l : List Char) : List Char :=
  stripUnderscore (subRuns (· == '_') (subRuns (fun c => !allowedChar c) (l.map pyLowerChar)))

/-- `normalize_attribute` from `semantic_attribute_matcher.py`. -/

def normalize_attribute (attr : String) : String :=
  if attr = "" then "" else String.mk (normChars attr.data)

/-! ### Idempotence of normalization (C6) -/

/-- No two adjacent underscores. -/

def NoDoubleUS (l : List Char) : Prop :=
  l.Chain' (fun a b => a ≠ '_' ∨ b ≠ '_')

/-- Characterization of strings left unchanged by `normChars`. -/

def Normed (l : List Char) : Prop :=
  (∀ c ∈ l, allowedChar c) ∧ NoDoubleUS l ∧ l.head? ≠ some '_' ∧ l.getLast? ≠ some '_'

/-! ## Python scalar values and type inference -/

/-- Python values as they occur in parsed rows: `None`, `bool`, `int`,
`float` (modelled as an exact rational), `str`, `list`, `dict`
(insertion-ordered). -/

inductive PyVal where
  | none
  | bool (b : Bool)
  | int (n : Int)
  | float (q : ℚ)
  | str (s : String)
  | list (xs : List PyVal)
  | dict (kvs : List (String × PyVal))

/-- Python `str(v)`, as far as the executor applies it to scalars. -/

def pyStr : PyVal → String
  | .none => "None"
  | .bool true => "True"
  | .bool false => "False"
  | .int n => toString n
  | .float q => toString q
  | .str s => s
  | .list _ => "<list>"
  | .dict _ => "<dict>"

def PyVal.isNone : PyVal → Bool
  | .none => true
  | _ => false

/-- `infer_type` from `semantic_attribute_matcher.py`: maps a Python value to
a PostgreSQL type name.  A string longer than 10 characters containing `T` or
`-` is taken for a timestamp; a string longer than 255 characters becomes
`TEXT`; other strings become `VARCHAR`. -/

def infer_type : PyVal → String
  | .none => "TEXT"
  | .bool _ => "BOOLEAN"
  | .int _ => "INTEGER"
  | .float _ => "NUMERIC"
  | .str v =>
    if 10 < v.length ∧ ('T' ∈ v.data ∨ '-' ∈ v.data) then "TIMESTAMP"
    else if 255 < v.length then "TEXT"
    else "VARCHAR"
  | .list _ => "TEXT"
  | .dict _ => "TEXT"

/-- The maximum of `len(str(v))` over the first 100 non-null sampled values,
with default 0 (mirrors the generator inside `infer_column_type`). -/

def maxSampledLen (values : List PyVal) : Nat :=
  (((values.filter (fun v => !v.isNone)).take 100).map (fun v => (pyStr v).length)).foldl
    Nat.max 0

/-- The `types_found` step of `infer_column_type`: the unique inferred type
of the first 100 non-null samples, or `TEXT` on a mix. -/

def inferredPgType (values : List PyVal) : String :=
  match (((values.filter (fun v => !v.isNone)).take 100).map infer_type).dedup with
  | [t] => t
  | _ => "TEXT"

/-- `SQLExecutor.infer_column_type` from `sql_executor.py`. -/

def infer_column_type (values : List PyVal) : String :=
  if values.isEmpty then "TEXT"
  else if (values.filter (fun v => !v.isNone)).isEmpty then "TEXT"
  else if inferredPgType values = "VARCHAR" then
    if 255 < maxSampledLen values then "TEXT"
    else if 0 < maxSampledLen values then
      "VARCHAR(" ++ toString (Nat.min ((maxSampledLen values / 50 + 1) * 50) 1000) ++ ")"
    else inferredPgType values
  else inferredPgType values

/-! ### C5: varchar sizing -/

/-- The smallest multiple of 50 that is ≥ `n` (the claim's reading of
"rounded up to the next multiple of 50"). -/

def roundUp50 (n : Nat) : Nat := 50 * ((n + 49) / 50)

/-- The spec's sentence about string columns, as a predicate: all-string
columns get `varchar(n)` with `n` the rounded-up maximum length capped at
1000, and `text` only when a string exceeds that cap. -/

def C5Claim : Prop :=
  ∀ values : List PyVal, values ≠ [] →
    (∀ v ∈ values, ∃ s : String, v = PyVal.str s) →
    infer_column_type values =
      (if maxSampledLen values ≤ 1000 then
        "VARCHAR(" ++ toString (Nat.min (roundUp50 (maxSampledLen values)) 1000) ++ ")"
      else "TEXT")

/-! ## Synonyms and tokenization (`semantic_attribute_matcher.py`) -/

/-- `SYNONYM_GROUPS`, in dictionary insertion order. -/
def SYNONYM_GROUPS : List (String × List String) := [
  ("name", ["name", "product_name", "productName", "item_name", "full_name", "username",
    "title"]),
  ("price", ["price", "cost", "amount", "value", "total", "sum", "price_amount"]),
  ("stock", ["stock", "quantity", "quantity_available", "inventory", "qty", "stock_level"]),
  ("gender", ["gender", "sex", "target_gender", "gender_type"]),
  ("email", ["email", "email_address", "emailAddress", "e_mail", "mail", "email_id"]),
  ("phone", ["phone", "phone_number", "phoneNumber", "mobile", "telephone",
    "contact_number"]),
  ("address", ["address", "location", "street_address", "full_address", "addr"]),
  ("date", ["date", "created_date", "date_created", "timestamp", "created_at",
    "updated_at"]),
  ("id", ["id", "_id", "id_", "identifier", "key", "primary_key"]),
  ("description", ["description", "desc", "details", "info", "notes", "comment"]),
  ("category", ["category", "type", "classification", "group", "tag"]),
  ("status", ["status", "state", "condition", "active"]),
  ("age", ["age", "years_old", "years"]),
  ("country", ["country", "nation", "country_code"]),
  ("city", ["city", "town", "location_city"]),
  ("zip", ["zip", "zipcode", "postal_code", "postcode"])]

/-- `get_synonym_group`: the first group whose normalized synonyms contain the
normalized attribute. -/
def get_synonym_group (attr : String) : Option String :=
  (SYNONYM_GROUPS.find? (fun g =>
    (g.2.map normalize_attribute).contains (normalize_attribute attr))).map (·.1)

/-- `are_synonyms`: both attributes belong to the same synonym group. -/
def are_synonyms (attr1 attr2 : String) : Bool :=
  match get_synonym_group attr1, get_synonym_group attr2 with
  | some g1, some g2 => g1 == g2
  | _, _ => false

/-- `is_id_attribute` from `semantic_attribute_matcher.py`. -/
def is_id_attribute (attr : String) : Bool :=
  if attr = "" then false
  else
    (["id", "identifier", "key", "primary_key", "pk"].contains (normalize_attribute attr)) ||
    (decide ("_id".data <:+ (normalize_attribute attr).data) ||
      decide ("id_".data <+: (normalize_attribute attr).data)) ||
    normalize_attribute attr == "_id"

def isLowerCh (c : Char) : Bool := 97 ≤ c.toNat && c.toNat ≤ 122

def isUpperCh (c : Char) : Bool := 65 ≤ c.toNat && c.toNat ≤ 90

/-- Python `str.split('_')` at the character level. -/
def splitUSAux : List Char → List Char → List (List Char)
  | [], acc => [acc.reverse]
  | c :: cs, acc =>
    if c = '_' then acc.reverse :: splitUSAux cs []
    else splitUSAux cs (c :: acc)

/-- `re.findall('[a-z]+|[A-Z][a-z]*', part)`: maximal lowercase runs, or one
uppercase letter followed by a maximal lowercase run; other characters are
skipped.  The fuel argument is the length of the input. -/
def camelPartsF : Nat → List Char → List String
  | 0, _ => []
  | _ + 1, [] => []
  | fuel + 1, c :: cs =>
    if isLowerCh c || isUpperCh c then
      String.mk (c :: cs.takeWhile isLowerCh) :: camelPartsF fuel (cs.dropWhile isLowerCh)
    else camelPartsF fuel cs

def pyLowerStr (s : String) : String := String.mk (s.data.map pyLowerChar)

/-- `tokenize`: split on underscores, split camelCase, lower-case, collect
into a set. -/
def tokenize (attr : String) : Finset String :=
  (((splitUSAux attr.data []).flatMap (fun part => camelPartsF part.length part)).map
    pyLowerStr).toFinset

/-- `calculate_token_overlap`: Jaccard ratio of the token sets of the
normalized attributes. -/
def calculate_token_overlap (attr1 attr2 : String) : ℚ :=
  let tokens1 := tokenize (normalize_attribute attr1)
  let tokens2 := tokenize (normalize_attribute attr2)
  if tokens1 = ∅ ∨ tokens2 = ∅ then 0
  else if tokens1 ∪ tokens2 = ∅ then 0
  else ((tokens1 ∩ tokens2).card : ℚ) / ((tokens1 ∪ tokens2).card : ℚ)

/-! ## `difflib.SequenceMatcher` (reached through
`calculate_levenshtein_similarity`) -/

/-- Ascending positions of a character in `b` (the `b2j` table entries). -/
def positionsOf (b : List Char) (c : Char) : List Nat :=
  (List.range b.length).filter (fun j => b.getD j ' ' == c)

def charCount (b : List Char) (c : Char) : Nat := (b.filter (fun d => d == c)).length

/-- The autojunk heuristic: for `b` of length ≥ 200, characters occurring in
more than 1% of `b` are junked. -/
def isPopularChar (b : List Char) (c : Char) : Bool :=
  (200 ≤ b.length) && (b.length / 100 + 1 < charCount b c)

def b2j (b : List Char) (c : Char) : List Nat :=
  if isPopularChar b c then [] else positionsOf b c

def lookupJ2 (m : List (Nat × Nat)) (j : Nat) : Nat :=
  match m.find? (fun p => p.1 == j) with
  | some p => p.2
  | none => 0

/-- One row `i` of `find_longest_match`: walk the positions of `a[i]` in `b`,
building the new `j2len` table and updating the best match.  A position
`j = 0` has no predecessor, matching Python's `j2len.get(-1, 0)`. -/
def flmRow (i : Nat) (j2len : List (Nat × Nat)) :
    List Nat → Nat × Nat × Nat → List (Nat × Nat) × (Nat × Nat × Nat)
  | [], best => ([], best)
  | j :: js, best =>
    let k := if j = 0 then 1 else lookupJ2 j2len (j - 1) + 1
    let best' := if best.2.2 < k then (i + 1 - k, j + 1 - k, k) else best
    let r := flmRow i j2len js best'
    ((j, k) :: r.1, r.2)

/-- The outer loop of `find_longest_match` over `i ∈ [alo, ahi)`. -/
def flmRows (a b : List Char) (blo bhi : Nat) :
    List Nat → List (Nat × Nat) → Nat × Nat × Nat → Nat × Nat × Nat
  | [], _, best => best
  | i :: idxs, j2len, best =>
    let js := ((b2j b (a.getD i ' ')).takeWhile (fun j => j < bhi)).filter
      (fun j => blo ≤ j)
    let r := flmRow i j2len js best
    flmRows a b blo bhi idxs r.1 r.2

/-- Backward extension loop of `find_longest_match` (junk or non-junk
according to `junkFlag`); each step decrements `besti`, so `besti` itself is
enough fuel. -/
def extendBack (a b : List Char) (alo blo : Nat) (junkFlag : Bool) :
    Nat → Nat × Nat × Nat → Nat × Nat × Nat
  | 0, st => st
  | fuel + 1, (besti, bestj, bestsize) =>
    if alo < besti ∧ blo < bestj ∧ isPopularChar b (b.getD (bestj - 1) ' ') = junkFlag ∧
        a.getD (besti - 1) ' ' = b.getD (bestj - 1) ' ' then
      extendBack a b alo blo junkFlag fuel (besti - 1, bestj - 1, bestsize + 1)
    else (besti, bestj, bestsize)

/-- Forward extension loop of `find_longest_match`; each step needs
`besti + bestsize < ahi`, so `ahi` is enough fuel. -/
def extendFwd (a b : List Char) (ahi bhi : Nat) (junkFlag : Bool) :
    Nat → Nat × Nat × Nat → Nat × Nat × Nat
  | 0, st => st
  | fuel + 1, (besti, bestj, bestsize) =>
    if besti + bestsize < ahi ∧ bestj + bestsize < bhi ∧
        isPopularChar b (b.getD (bestj + bestsize) ' ') = junkFlag ∧
        a.getD (besti + bestsize) ' ' = b.getD (bestj + bestsize) ' ' then
      extendFwd a b ahi bhi junkFlag fuel (besti, bestj, bestsize + 1)
    else (besti, bestj, bestsize)

/-- The dynamic-programming phase of `find_longest_match`. -/
def flmBase (a b : List Char) (alo ahi blo bhi : Nat) : Nat × Nat × Nat :=
  flmRows a b blo bhi (List.range' alo (ahi - alo)) [] (alo, blo, 0)

/-- `find_longest_match` after the backward non-junk extension. -/
def flmStage1 (a b : List Char) (alo ahi blo bhi : Nat) : Nat × Nat × Nat :=
  extendBack a b alo blo false (flmBase a b alo ahi blo bhi).1 (flmBase a b alo ahi blo bhi)

/-- `find_longest_match` after the forward non-junk extension. -/
def flmStage2 (a b : List Char) (alo ahi blo bhi : Nat) : Nat × Nat × Nat :=
  extendFwd a b ahi bhi false ahi (flmStage1 a b alo ahi blo bhi)

/-- `find_longest_match` after the backward junk extension. -/
def flmStage3 (a b : List Char) (alo ahi blo bhi : Nat) : Nat × Nat × Nat :=
  extendBack a b alo blo true (flmStage2 a b alo ahi blo bhi).1 (flmStage2 a b alo ahi blo bhi)

/-- `SequenceMatcher.find_longest_match` on the window
`a[alo:ahi] × b[blo:bhi]`: the DP phase followed by the four extension
loops. -/
def find_longest_match (a b : List Char) (alo ahi blo bhi : Nat) : Nat × Nat × Nat :=
  extendFwd a b ahi bhi true ahi (flmStage3 a b alo ahi blo bhi)

/-- Total size of the matching blocks found by the recursive splitting of
`get_matching_blocks` (the queue order and adjacent-block merging do not
change the sum).  The fuel `|a| + |b| + 1` dominates the recursion depth. -/
def matchesSum (a b : List Char) : Nat → Nat → Nat → Nat → Nat → Nat
  | 0, _, _, _, _ => 0
  | fuel + 1, alo, ahi, blo, bhi =>
    let m := find_longest_match a b alo ahi blo bhi
    if m.2.2 = 0 then 0
    else matchesSum a b fuel alo m.1 blo m.2.1 + m.2.2 +
      matchesSum a b fuel (m.1 + m.2.2) ahi (m.2.1 + m.2.2) bhi

/-- `SequenceMatcher(None, a, b).ratio()`: `2M / (|a| + |b|)`, and 1.0 when
both sequences are empty. -/
def smRatio (a b : List Char) : ℚ :=
  if a.length + b.length = 0 then 1
  else 2 * (matchesSum a b (a.length + b.length + 1) 0 a.length 0 b.length : ℚ) /
    ((a.length : ℚ) + (b.length : ℚ))

/-- `calculate_levenshtein_similarity`: the `SequenceMatcher` ratio of the
normalized forms, with early returns for empty and equal normal forms. -/
def calculate_levenshtein_similarity (attr1 attr2 : String) : ℚ :=
  let norm1 := normalize_attribute attr1
  let norm2 := normalize_attribute attr2
  if norm1 = "" ∨ norm2 = "" then 0
  else if norm1 = norm2 then 1
  else smRatio norm1.data norm2.data

/-! ## Type compatibility and combined similarity -/

def numericFamily : List String := ["INTEGER", "NUMERIC", "BIGINT"]

def textFamily3 : List String := ["VARCHAR", "TEXT", "CHAR"]

def datetimeFamily : List String := ["TIMESTAMP", "DATE", "TIME"]

/-- `calculate_type_compatibility`, translated branch for branch: exact match
1.0; the loop over `compatible_groups` (numeric, text, datetime — unrolled
over the literal list) returning 0.8 on the first group containing both
types; then two 0.9 fallbacks for numeric and text pairs; otherwise 0.3. -/
def calculate_type_compatibility (type1 type2 : String) : ℚ :=
  if type1 = type2 then 1
  else if numericFamily.contains type1 && numericFamily.contains type2 then 4/5
  else if textFamily3.contains type1 && textFamily3.contains type2 then 4/5
  else if datetimeFamily.contains type1 && datetimeFamily.contains type2 then 4/5
  else if numericFamily.contains type1 && numericFamily.contains type2 then 9/10
  else if ["VARCHAR", "TEXT"].contains type1 && ["VARCHAR", "TEXT"].contains type2 then 9/10
  else 3/10

/-- The `name_similarity` computed inside `calculate_attribute_similarity`:
exact normalized match 1.0, else synonym 0.95, else the maximum of the
`SequenceMatcher` similarity and the weighted token overlap. -/
def codeNameSimilarity (newAttr existingAttr : String) : ℚ :=
  if normalize_attribute newAttr = normalize_attribute existingAttr then (1 : ℚ)
  else if are_synonyms newAttr existingAttr then 19/20
  else max (calculate_levenshtein_similarity newAttr existingAttr)
    (calculate_token_overlap newAttr existingAttr * (4/5))

/-- The `type_compatibility` computed inside `calculate_attribute_similarity`:
1.0 by default, the type table when both a sample value and a (truthy)
existing type are present, 0.7 when only the existing type is present. -/
def codeTypeCompatibility (newValue : Option PyVal) (existingType : Option String) : ℚ :=
  match existingType with
  | some ty =>
    if ty = "" then 1
    else match newValue with
      | some v => calculate_type_compatibility (infer_type v) ty
      | Option.none => 7/10
  | Option.none => 1

/-- `calculate_attribute_similarity`: 70 % name similarity plus 30 % type
compatibility (with Python's truthiness on the existing type and `None`
sample values handled by `Option`). -/
def calculate_attribute_similarity (newAttr existingAttr : String)
    (newValue : Option PyVal) (existingType : Option String) : ℚ :=
  7/10 * codeNameSimilarity newAttr existingAttr +
  3/10 * codeTypeCompatibility newValue existingType

/-! ### C3: claim-side and amended formulations -/

/-- Name similarity as the claim words it: the maximum of exact equality
(1.0), synonym membership (0.95), weighted token overlap, and the
`SequenceMatcher` ratio. -/
def specNameSimilarityClaim (a b : String) : ℚ :=
  max (max (if normalize_attribute a = normalize_attribute b then (1 : ℚ) else 0)
      (if are_synonyms a b then 19/20 else 0))
    (max (4/5 * calculate_token_overlap a b)
      (smRatio (normalize_attribute a).data (normalize_attribute b).data))

/-- Type compatibility as the claim words it: 1.0 exact, 0.9 numeric family,
0.9 text family, 0.8 datetime family, 0.3 otherwise. -/
def specTypeCompatClaim (t1 t2 : String) : ℚ :=
  if t1 = t2 then 1
  else if numericFamily.contains t1 && numericFamily.contains t2 then 9/10
  else if textFamily3.contains t1 && textFamily3.contains t2 then 9/10
  else if datetimeFamily.contains t1 && datetimeFamily.contains t2 then 4/5
  else 3/10

/-- The C3 claim: for any attribute pair with a known (non-empty) existing
type, the combined score is `0.7 × (max-of-four name similarity) + 0.3 ×
(claimed type compatibility, 0.7 without a sample value)`. -/
def C3Claim : Prop :=
  ∀ (a b : String) (v : Option PyVal) (ty : String), ty ≠ "" →
    calculate_attribute_similarity a b v (some ty) =
      7/10 * specNameSimilarityClaim a b +
      3/10 * (match v with
        | some val => specTypeCompatClaim (infer_type val) ty
        | Option.none => 7/10)

/-- Amended name similarity: exact 1.0 takes priority, then synonym 0.95
(even when the raw ratio is higher), then the max of the `SequenceMatcher`
ratio and 0.8 × token overlap. -/
def amendedNameSimilarity (a b : String) : ℚ :=
  if normalize_attribute a = normalize_attribute b then (1 : ℚ)
  else if are_synonyms a b then 19/20
  else max (smRatio (normalize_attribute a).data (normalize_attribute b).data)
    (4/5 * calculate_token_overlap a b)

/-- Amended type compatibility: 1.0 exact, 0.8 within any of the numeric,
text and datetime families (the 0.9 branches are dead code), 0.3 otherwise. -/
def amendedTypeCompat (t1 t2 : String) : ℚ :=
  if t1 = t2 then 1
  else if (numericFamily.contains t1 && numericFamily.contains t2) ||
      (textFamily3.contains t1 && textFamily3.contains t2) ||
      (datetimeFamily.contains t1 && datetimeFamily.contains t2) then 4/5
  else 3/10

/-- Amended type compatibility lifted to optional sample value and type:
1.0 when the existing type is absent or empty, 0.7 when only the type is
known, otherwise the family table. -/
def amendedTypeCompatOpt (v : Option PyVal) (t : Option String) : ℚ :=
  match t with
  | some ty =>
    if ty = "" then 1
    else match v with
      | some val => amendedTypeCompat (infer_type val) ty
      | Option.none => 7/10
  | Option.none => 1

/-! ## Attribute matching (`match_attributes`) -/

/-- A Python dict with string keys and values: an insertion-ordered
association list; inserting an existing key overwrites in place. -/
abbrev SMap := List (String × String)

def smapInsert (m : SMap) (k v : String) : SMap :=
  if m.any (fun p => p.1 == k) then m.map (fun p => if p.1 == k then (k, v) else p)
  else m ++ [(k, v)]

def smapLookup (m : SMap) (k : String) : Option String :=
  (m.find? (fun p => p.1 == k)).map (fun p => p.2)

def smapValues (m : SMap) : List String := m.map (fun p => p.2)

/-- Python `sub in s` (substring containment). -/
def strContains (s sub : String) : Bool := decide (sub.data <:+: s.data)

/-- One iteration of the ID-attribute matching loop of `match_attributes`:
exact normalized match, then the single-ID-on-both-sides rule, then partial
containment on `id`; an unmatched ID attribute goes to `new_fields` (once). -/
def matchIdOne (existingIdAttrs allNewIds : List String)
    (st : SMap × List String) (newId : String) : SMap × List String :=
  match existingIdAttrs.find? (fun e =>
      normalize_attribute e == normalize_attribute newId) with
  | some e => (smapInsert st.1 newId e, st.2)
  | Option.none =>
    if allNewIds.length = 1 ∧ existingIdAttrs.length = 1 then
      (smapInsert st.1 newId (existingIdAttrs.headD ""), st.2)
    else
      match existingIdAttrs.find? (fun e =>
          (strContains (normalize_attribute newId) "id" &&
            strContains (normalize_attribute e) "id") &&
          (decide ((normalize_attribute e).data <:+: (normalize_attribute newId).data) ||
            decide ((normalize_attribute newId).data <:+: (normalize_attribute e).data))) with
      | some e => (smapInsert st.1 newId e, st.2)
      | Option.none =>
        if st.2.contains newId then st
        else (st.1, st.2 ++ [newId])

/-- The inner best-match loop of the regular phase of `match_attributes`:
existing columns whose normalized form is already a mapped target are
skipped; otherwise the combined similarity is computed and a strictly better
score becomes the best. -/
def bestRegularMatch (mapping : SMap) (newAttr : String) (newValue : Option PyVal)
    (getType : String → Option String) :
    List String → Option String × ℚ → Option String × ℚ
  | [], best => best
  | e :: es, best =>
    if ((smapValues mapping).map (fun m => normalize_attribute m)).contains
        (normalize_attribute e) then
      bestRegularMatch mapping newAttr newValue getType es best
    else
      let score := calculate_attribute_similarity newAttr e newValue (getType e)
      if best.2 < score then
        bestRegularMatch mapping newAttr newValue getType es (some e, score)
      else bestRegularMatch mapping newAttr newValue getType es best

/-- One iteration of the regular-attribute matching loop: map the best match
when it is truthy and reaches the threshold, otherwise append to
`new_fields`. -/
def matchRegularOne (existingRegularAttrs : List String)
    (sampleValue : String → Option PyVal) (getType : String → Option String)
    (threshold : ℚ) (st : SMap × List String) (newAttr : String) : SMap × List String :=
  match bestRegularMatch st.1 newAttr (sampleValue newAttr) getType existingRegularAttrs
      (Option.none, 0) with
  | (some e, score) =>
    if e ≠ "" ∧ threshold ≤ score then (smapInsert st.1 newAttr e, st.2)
    else (st.1, st.2 ++ [newAttr])
  | (Option.none, _) => (st.1, st.2 ++ [newAttr])

/-- `match_attributes` from `semantic_attribute_matcher.py`: ID attributes
are matched to ID attributes first, then regular attributes greedily in
input order; a sample value that is Python `None` (or absent) counts as no
sample. -/
def match_attributes (newAttributes existingAttributes : List String)
    (newData : Option (List (List (String × PyVal))))
    (existingTypes : Option (List (String × String)))
    (similarityThreshold : ℚ) : SMap × List String :=
  (newAttributes.filter (fun a => !is_id_attribute a)).foldl
    (matchRegularOne (existingAttributes.filter (fun a => !is_id_attribute a))
      (fun attr =>
        match newData with
        | some (row :: _) =>
          match (row.find? (fun p => p.1 == attr)).map (fun p => p.2) with
          | some v => if v.isNone then Option.none else some v
          | Option.none => Option.none
        | _ => Option.none)
      (fun e =>
        match existingTypes with
        | some ts => (ts.find? (fun p => p.1 == e)).map (fun p => p.2)
        | Option.none => Option.none)
      similarityThreshold)
    ((newAttributes.filter (fun a => is_id_attribute a)).foldl
      (matchIdOne (existingAttributes.filter (fun a => is_id_attribute a))
        (newAttributes.filter (fun a => is_id_attribute a)))
      ([], []))

/-! ### C2: injectivity of the produced mapping -/

/-- The C2 claim: the mapping returned by `match_attributes` (at its default
threshold 0.6) never maps two different new attributes to the same existing
attribute. -/
def C2Claim : Prop :=
  ∀ (newAttrs existAttrs : List String) (nd : Option (List (List (String × PyVal))))
    (et : Option (List (String × String))) (k1 k2 v : String),
    k1 ≠ k2 →
    smapLookup (match_attributes newAttrs existAttrs nd et (3/5)).1 k1 = some v →
    smapLookup (match_attributes newAttrs existAttrs nd et (3/5)).1 k2 = some v →
    False

/-- Any two entries of the mapping with different keys, at least one of which
is a regular (non-ID) attribute, have targets with different normalized
forms. -/
def GoodMap (m : SMap) : Prop :=
  ∀ p₁ ∈ m, ∀ p₂ ∈ m, p₁.1 ≠ p₂.1 →
    (is_id_attribute p₁.1 = false ∨ is_id_attribute p₂.1 = false) →
    normalize_attribute p₁.2 ≠ normalize_attribute p₂.2

/-- All keys of the mapping are ID attributes. -/
def KeysAllId (m : SMap) : Prop := ∀ p ∈ m, is_id_attribute p.1 = true

/-! ## Schema evolution engine (`schema_evolution_engine.py`) -/

/-- Sample rows, as passed for type inference. -/
abbrev Rows := List (List (String × PyVal))

/-- The engine's loaded metadata: table name to its ordered columns with
their `data_type`s, as `_load_metadata` reads them from the catalog. -/
abbrev TableCatalog := List (String × List (String × String))

/-- The inverted index: tables having a non-ID column with the given
normalized name (`_load_metadata` excludes ID attributes from the index). -/
def invertedIndexLookup (cat : TableCatalog) (norm : String) : List String :=
  (cat.filter (fun tb => (tb.2.filter (fun col => !is_id_attribute col.1)).any
    (fun col => normalize_attribute col.1 == norm))).map (fun tb => tb.1)

/-- `table_matches` accumulator: first-touch-ordered tables with their sets
of matched normalized attributes. -/
abbrev TableMatches := List (String × List String)

/-- Add a matched normalized attribute to a table's entry (defaultdict-set
semantics). -/
def tmAdd (tm : TableMatches) (t norm : String) : TableMatches :=
  if tm.any (fun p => p.1 == t) then
    tm.map (fun p => if p.1 == t then
      (if p.2.contains norm then p else (p.1, p.2 ++ [norm])) else p)
  else tm ++ [(t, [norm])]

def tmLookup (tm : TableMatches) (t : String) : List String :=
  match tm.find? (fun p => p.1 == t) with
  | some p => p.2
  | Option.none => []

/-- First pass of `get_candidate_tables`: exact normalized matches through
the inverted index. -/
def candFirstPass (cat : TableCatalog) (normalizedNew : List String) : TableMatches :=
  normalizedNew.foldl (fun tm norm =>
    (invertedIndexLookup cat norm).foldl (fun tm t => tmAdd tm t norm) tm) []

/-- The per-column semantic test of the second pass: first non-ID column with
an exact normalized match, a synonym match, or similarity ≥ 0.4. -/
def semanticColumnHit (newAttr : String) (cols : List (String × String)) : Bool :=
  (cols.find? (fun col =>
    !is_id_attribute col.1 &&
    ((normalize_attribute newAttr == normalize_attribute col.1) ||
      are_synonyms newAttr col.1 ||
      decide ((2 : ℚ)/5 ≤ calculate_attribute_similarity newAttr col.1
        Option.none Option.none)))).isSome

/-- Second pass of `get_candidate_tables`: semantic matches against every
table not already matched exactly for this attribute. -/
def candSecondPass (cat : TableCatalog) (regularAttrs : List String)
    (tm : TableMatches) : TableMatches :=
  regularAttrs.foldl (fun tm newAttr =>
    cat.foldl (fun tm tb =>
      if (tmLookup tm tb.1).contains (normalize_attribute newAttr) then tm
      else if semanticColumnHit newAttr tb.2 then
        tmAdd tm tb.1 (normalize_attribute newAttr)
      else tm) tm) tm

/-- Stable insertion into a count-descending candidate list (matches the
stability of Python's `list.sort`). -/
def insertByCountDesc (x : String × Nat × List String) :
    List (String × Nat × List String) → List (String × Nat × List String)
  | [] => [x]
  | y :: ys =>
    if x.2.1 < y.2.1 then y :: insertByCountDesc x ys
    else x :: y :: ys

/-- Stable sort by match count, descending. -/
def sortByCountDesc : List (String × Nat × List String) →
    List (String × Nat × List String)
  | [] => []
  | x :: xs => insertByCountDesc x (sortByCountDesc xs)

/-- `get_candidate_tables`: exact pass, semantic pass, filter by
`min_matches`, sort by match count descending. -/
def get_candidate_tables (cat : TableCatalog) (newAttributes : List String)
    (minMatches : Nat) : List (String × Nat × List String) :=
  sortByCountDesc
    (((candSecondPass cat (newAttributes.filter (fun a => !is_id_attribute a))
        (candFirstPass cat
          ((newAttributes.filter (fun a => !is_id_attribute a)).map
            (fun a => normalize_attribute a)))).map
      (fun p => (p.1, p.2.length, p.2))).filter
    (fun c => minMatches ≤ c.2.1))

/-- `calculate_table_similarity`: run `match_attributes` against the table's
columns (regular then ID attributes, with the table's types) and compute the
regular-only match ratio. -/
def calculate_table_similarity (cat : TableCatalog) (newAttributes : List String)
    (tableName : String) (newData : Option Rows) : ℚ × SMap × List String :=
  match cat.find? (fun tb => tb.1 == tableName) with
  | Option.none => (0, [], newAttributes)
  | some tb =>
    match match_attributes
        ((newAttributes.filter (fun a => !is_id_attribute a)) ++
          (newAttributes.filter (fun a => is_id_attribute a)))
        (((tb.2.map (fun col => col.1)).filter (fun a => !is_id_attribute a)) ++
          ((tb.2.map (fun col => col.1)).filter (fun a => is_id_attribute a)))
        newData (some tb.2) (3/5) with
    | (mapping, newFields) =>
      if (newAttributes.filter (fun a => !is_id_attribute a)).length = 0 then
        (if 0 < mapping.length then (1, mapping, newFields) else (0, mapping, newFields))
      else
        (((mapping.filter (fun p =>
            (newAttributes.filter (fun a => !is_id_attribute a)).contains p.1)).length : ℚ) /
          ((newAttributes.filter (fun a => !is_id_attribute a)).length : ℚ),
          mapping, newFields)

/-- `calculate_dynamic_threshold`: 0.6 below 10 attributes, 0.8 from 10. -/
def calculate_dynamic_threshold (numAttributes : Nat) : ℚ :=
  if numAttributes < 10 then 3/5 else 4/5

/-- The best-candidate loop of `make_decision` over the top 3 candidates:
keep the strictly best match ratio. -/
def evalCandidates (cat : TableCatalog) (newAttributes : List String)
    (newData : Option Rows) :
    List (String × Nat × List String) → Option (String × ℚ × SMap × List String) →
    Option (String × ℚ × SMap × List String)
  | [], best => best
  | c :: rest, best =>
    match calculate_table_similarity cat newAttributes c.1 newData with
    | (ratio, mapping, newFields) =>
      if (match best with | some b => b.2.1 | Option.none => 0) < ratio then
        evalCandidates cat newAttributes newData rest (some (c.1, ratio, mapping, newFields))
      else evalCandidates cat newAttributes newData rest best

/-- The best evaluated candidate that `make_decision` applies its rules to. -/
def bestEvaluated (cat : TableCatalog) (newAttributes : List String)
    (newData : Option Rows) : Option (String × ℚ × SMap × List String) :=
  if newAttributes.isEmpty then Option.none
  else evalCandidates cat newAttributes newData
    ((get_candidate_tables cat newAttributes 1).take 3) Option.none

/-- The decision record returned by `make_decision` (the human-readable
`reason` string is omitted). -/
structure Decision where
  decision : String
  tableName : Option String
  mapping : SMap
  newFields : List String
  matchRatio : ℚ

/-- `make_decision` from `schema_evolution_engine.py`: candidate retrieval,
evaluation of the top 3, then the decision rules. -/
def make_decision (cat : TableCatalog) (newAttributes : List String)
    (newData : Option Rows) : Decision :=
  if newAttributes.isEmpty then
    ⟨"new_table", Option.none, [], newAttributes, 0⟩
  else if (get_candidate_tables cat newAttributes 1).isEmpty then
    ⟨"new_table", Option.none, [], newAttributes, 0⟩
  else
    match bestEvaluated cat newAttributes newData with
    | Option.none => ⟨"new_table", Option.none, [], newAttributes, 0⟩
    | some (t, score, mapping, nf) =>
      if calculate_dynamic_threshold newAttributes.length ≤ score ∧ nf.length = 0 then
        ⟨"same_table", some t, mapping, nf, score⟩
      else if 1/2 ≤ score ∧ nf.length ≤ 3 then
        ⟨"evolved_table", some t, mapping, nf, score⟩
      else if 1/2 ≤ score ∧ 3 < nf.length then
        ⟨"evolved_table_jsonb", some t, mapping, nf, score⟩
      else ⟨"new_table", Option.none, [], newAttributes, score⟩

/-! ### C1: the decision table -/

/-- The C1 claim: for every attribute list evaluated against its best
candidate, the decision matches the spec's table exactly — in particular
`evolved_table` requires at least one new field, and every other combination
falls to `new_table`. -/
def C1Claim : Prop :=
  ∀ (cat : TableCatalog) (newAttributes : List String) (newData : Option Rows)
    (t : String) (score : ℚ) (mapping : SMap) (nf : List String),
    bestEvaluated cat newAttributes newData = some (t, score, mapping, nf) →
    ((make_decision cat newAttributes newData).decision = "same_table" ↔
      calculate_dynamic_threshold newAttributes.length ≤ score ∧ nf.length = 0) ∧
    ((make_decision cat newAttributes newData).decision = "evolved_table" ↔
      1/2 ≤ score ∧ 1 ≤ nf.length ∧ nf.length ≤ 3) ∧
    ((make_decision cat newAttributes newData).decision = "evolved_table_jsonb" ↔
      1/2 ≤ score ∧ 3 < nf.length) ∧
    ((make_decision cat newAttributes newData).decision = "new_table" ↔
      (¬(calculate_dynamic_threshold newAttributes.length ≤ score ∧ nf.length = 0) ∧
        ¬(1/2 ≤ score ∧ 1 ≤ nf.length ∧ nf.length ≤ 3) ∧
        ¬(1/2 ≤ score ∧ 3 < nf.length)))

/-- The concrete catalog of the C1 counterexample: one table `t` with text
columns `a` and `a2`. -/
def cexCatalog : TableCatalog := [("t", [("a", "TEXT"), ("a2", "TEXT")])]

/-! ## Character chunker and chunk documents (`nosql_processor/main.py`) -/

/-- Python slice `text[start : start + size]`. -/
def pySlice (text : List Char) (start size : Nat) : List Char :=
  (text.drop start).take size

/-- The `while start < len(text)` loop of `simple_character_chunker`: append
`text[start:end]`, stop when `end >= len(text)`, else continue from
`end - overlap`.  The fuel bounds the number of iterations; the main theorem
shows `|text|` is enough fuel whenever `overlap < chunk_size`. -/
def chunkLoop (text : List Char) (cs ov : Nat) : Nat → Nat → List (List Char)
  | 0, _ => []
  | fuel + 1, start =>
    if start < text.length then
      if text.length ≤ start + cs then [pySlice text start cs]
      else pySlice text start cs :: chunkLoop text cs ov fuel (start + cs - ov)
    else []

/-- `simple_character_chunker` from `nosql_processor/main.py`. -/
def simple_character_chunker (text : List Char) (cs ov : Nat) : List (List Char) :=
  if text.isEmpty then []
  else if text.length ≤ cs then [text]
  else chunkLoop text cs ov text.length 0

/-- One chunk document as `chunk_generator` builds it. -/
structure ChunkDoc where
  file_id : String
  tenant_id : String
  chunk_index : Nat
  text : List Char
  chunk_size : Nat

/-- The chunk documents inserted by `chunk_generator` for a file's text
(default chunker parameters 1000/200), indexed by `enumerate`. -/
def chunkDocs (text : List Char) (fileId tenantId : String) : List ChunkDoc :=
  ((simple_character_chunker text 1000 200).enum).map
    (fun p => ⟨fileId, tenantId, p.1, p.2, p.2.length⟩)

/-! ## Summary building (`pipeline.py`, `_build_summary`) -/

/-- ASCII whitespace as matched by Python's `str.strip` and `\s`. -/
def isPySpace (c : Char) : Bool :=
  c == ' ' || c == '\t' || c == '\n' || c == '\x0d' || c == '\x0b' || c == '\x0c'

/-- Python `str.strip()`. -/
def pyStrip (l : List Char) : List Char :=
  ((l.dropWhile isPySpace).reverse.dropWhile isPySpace).reverse

/-- Sentence terminators of the summary regex `(?<=[.!?])\s+`. -/
def isTerm (c : Char) : Bool := c == '.' || c == '!' || c == '?'

/-- Whether the (reversed) current piece ends in a sentence terminator. -/
def curEndsTerm : List Char → Bool
  | d :: _ => isTerm d
  | [] => false

/-- `re.split(r"(?<=[.!?])\s+", s)`: a maximal whitespace run directly after
a sentence terminator ends a piece.  `cur` holds the reversed current piece;
the fuel (the input length) bounds the recursion. -/
def splitSentAux : Nat → List Char → List Char → List (List Char)
  | 0, _, cur => [cur.reverse]
  | _ + 1, [], cur => [cur.reverse]
  | fuel + 1, c :: cs, cur =>
    if isPySpace c && curEndsTerm cur then
      cur.reverse :: splitSentAux fuel (cs.dropWhile isPySpace) []
    else splitSentAux fuel cs (c :: cur)

def splitSentences (l : List Char) : List (List Char) := splitSentAux l.length l []

/-- Python `" ".join(pieces)`. -/
def joinSpace : List (List Char) → List Char
  | [] => []
  | [p] => p
  | p :: ps => p ++ ' ' :: joinSpace ps

/-- `NoSQLIngestionPipeline._build_summary`: the file name for empty text,
otherwise the first 5 sentence pieces of the stripped text joined by single
spaces. -/
def build_summary (text pathName : List Char) : List Char :=
  if text.isEmpty then pathName
  else joinSpace ((splitSentences (pyStrip text)).take 5)

/-- The C7 claim: for every (non-empty) extracted text the summary never
exceeds 800 characters. -/
def C7Claim : Prop :=
  ∀ (text pathName : List Char), text ≠ [] → (build_summary text pathName).length ≤ 800

/-! ## File classification (`file_classifier.py`) -/

/-- Bool-valued `List.isPrefixOf` over characters. -/
def isPrefixB : List Char → List Char → Bool
  | [], _ => true
  | _ :: _, [] => false
  | a :: as, b :: bs => a == b && isPrefixB as bs

/-- Python `str.endswith`. -/
def isSuffixB (pat l : List Char) : Bool := isPrefixB pat.reverse l.reverse

/-- Python `pat in s` substring containment. -/
def isInfixB (pat : List Char) : List Char → Bool
  | [] => isPrefixB pat []
  | c :: rest => isPrefixB pat (c :: rest) || isInfixB pat rest

/-- Python `str.split(sep)` for a one-character separator. -/
def splitOnCharAux (sep : Char) : List Char → List Char → List (List Char)
  | [], cur => [cur.reverse]
  | c :: cs, cur =>
    if c == sep then cur.reverse :: splitOnCharAux sep cs []
    else splitOnCharAux sep cs (c :: cur)

def splitOnChar (sep : Char) (l : List Char) : List (List Char) :=
  splitOnCharAux sep l []

def startsWithChar (c : Char) : List Char → Bool
  | [] => false
  | d :: _ => d == c

/-- Python `str.count` for a non-empty pattern: non-overlapping occurrences,
scanning left to right (fuel: the string length). -/
def countOccurAux (pat : List Char) : Nat → List Char → Nat
  | 0, _ => 0
  | _ + 1, [] => 0
  | fuel + 1, c :: rest =>
    if isPrefixB pat (c :: rest) then 1 + countOccurAux pat fuel ((c :: rest).drop pat.length)
    else countOccurAux pat fuel rest

def countOccur (pat l : List Char) : Nat := countOccurAux pat l.length l

/-- After a `<`: skip one-or-more non-`>` characters then a closing `>`
(the regex `[^>]+>`); `none` when there is no such match here. -/
def tagScan : List Char → Option (List Char)
  | [] => none
  | c :: cs => if c == '>' then some cs else tagScan cs

def tagEnd : List Char → Option (List Char)
  | [] => none
  | c :: cs => if c == '>' then none else tagScan cs

/-- `re.sub(r"<[^>]+>", "", s)`: drop every tag-like run (fuel: the string
length). -/
def stripTagsAux : Nat → List Char → List Char
  | 0, l => l
  | _ + 1, [] => []
  | fuel + 1, c :: cs =>
    if c == '<' then
      match tagEnd cs with
      | some rest => stripTagsAux fuel rest
      | none => c :: stripTagsAux fuel cs
    else c :: stripTagsAux fuel cs

def stripTags (l : List Char) : List Char := stripTagsAux l.length l

/- Parsed JSON/YAML data (`json.load` / `yaml.safe_load` output), with the
list and dict spines as mutual inductives so that every recursion below is
structural. -/
mutual
inductive JVal where
  | str : List Char → JVal
  | int : Int → JVal
  | num : ℚ → JVal
  | bool : Bool → JVal
  | null : JVal
  | list : JList → JVal
  | dict : JDict → JVal

inductive JList where
  | nil : JList
  | cons : JVal → JList → JList

inductive JDict where
  | nil : JDict
  | cons : List Char → JVal → JDict → JDict
end

def JList.toList : JList → List JVal
  | .nil => []
  | .cons v rest => v :: JList.toList rest

def JDict.keys : JDict → List (List Char)
  | .nil => []
  | .cons k _ rest => k :: JDict.keys rest

def JDict.values : JDict → List JVal
  | .nil => []
  | .cons _ v rest => v :: JDict.values rest

/-- `isinstance(v, (str, int, float, bool, type(None)))`. -/
def isPrim : JVal → Bool
  | .dict _ => false
  | .list _ => false
  | _ => true

/-- `isinstance(v, (dict, list))`. -/
def isContainer (v : JVal) : Bool := !isPrim v

def isDict : JVal → Bool
  | .dict _ => true
  | _ => false

def keysOf : JVal → Option (List (List Char))
  | .dict kvs => some (JDict.keys kvs)
  | _ => none

/-- Python set equality of two key collections. -/
def keySetEq (a b : List (List Char)) : Bool :=
  a.all (fun k => b.any (fun k2 => k == k2)) &&
  b.all (fun k => a.any (fun k2 => k == k2))

/-- `FileClassifier._is_flat_structure` (always called with depth 0). -/
def is_flat_structure (data : JVal) (depth : Nat) : Bool :=
  if depth > 1 then false
  else match data with
    | .dict kvs => (JDict.values kvs).all isPrim
    | .list l => (JList.toList l).all isPrim
    | _ => true

/- `FileClassifier._get_nested_depth`. -/
mutual
def jval_depth : JVal → Nat → Nat
  | .dict kvs, d => match kvs with
    | .nil => d
    | _ => jdict_depth kvs (d + 1)
  | .list l, d => match l with
    | .nil => d
    | _ => jlist_depth l (d + 1)
  | _, d => d

def jdict_depth : JDict → Nat → Nat
  | .nil, _ => 0
  | .cons _ v rest, d => max (jval_depth v d) (jdict_depth rest d)

def jlist_depth : JList → Nat → Nat
  | .nil, _ => 0
  | .cons v rest, d => max (jval_depth v d) (jlist_depth rest d)
end

def idPatterns : List String :=
  ["id", "_id", "id_", "key", "_key", "key_", "pk", "fk", "foreign"]

/- `FileClassifier._has_relational_patterns`. -/
mutual
def has_relational_patterns : JVal → Bool
  | JVal.dict kvs =>
    ((JDict.keys kvs).any fun k =>
      idPatterns.any fun p => isInfixB p.data (k.map pyLowerChar)) ||
    relationalDict kvs
  | JVal.list l => relationalList l
  | _ => false

def relationalDict : JDict → Bool
  | JDict.nil => false
  | JDict.cons _ v rest =>
    (if isContainer v then has_relational_patterns v else false) ||
    relationalDict rest

def relationalList : JList → Bool
  | JList.nil => false
  | JList.cons v rest =>
    (if isContainer v then has_relational_patterns v else false) ||
    relationalList rest
end

/-- `FileClassifier._has_dynamic_keys`: in an array of dicts, more than one
distinct key set, i.e. some key set differs from the first. -/
def has_dynamic_keys : JVal → Bool
  | JVal.list l =>
    let items := JList.toList l
    if items.length > 1 && items.all isDict then
      match items.filterMap keysOf with
      | [] => false
      | k0 :: rest => !((k0 :: rest).all fun ks => keySetEq ks k0)
    else false
  | _ => false

/-- `FileClassifier._is_schema_consistent`. -/
def is_schema_consistent : JVal → Bool
  | JVal.list l =>
    let items := JList.toList l
    if items.length > 1 && items.all isDict then
      match items.filterMap keysOf with
      | [] => true
      | k0 :: rest => rest.all fun ks => keySetEq ks k0
    else true
  | _ => true

/-- `FileClassifier._is_mostly_primitive`. -/
def is_mostly_primitive (data : JVal) : Bool :=
  match data with
  | JVal.dict kvs =>
    let vs := JDict.values kvs
    decide ((((vs.filter isPrim).length : ℚ) /
      (if vs.isEmpty then 1 else vs.length) : ℚ) > 4/5)
  | JVal.list l =>
    let vs := JList.toList l
    decide ((((vs.filter isPrim).length : ℚ) /
      (if vs.isEmpty then 1 else vs.length) : ℚ) > 4/5)
  | v => isPrim v

def textFields : List String :=
  ["content", "description", "html", "text", "body", "message"]

/- `FileClassifier._has_large_text_fields`. -/
mutual
def has_large_text_fields : Nat → JVal → Bool
  | threshold, JVal.dict kvs => largeDict threshold kvs
  | threshold, JVal.list l => largeList threshold l
  | _, _ => false

def largeDict : Nat → JDict → Bool
  | _, JDict.nil => false
  | threshold, JDict.cons k v rest =>
    ((textFields.any fun f => isInfixB f.data (k.map pyLowerChar)) &&
      (match v with | JVal.str t => decide (threshold < t.length) | _ => false)) ||
    (if isContainer v then has_large_text_fields threshold v else false) ||
    largeDict threshold rest

def largeList : Nat → JList → Bool
  | _, JList.nil => false
  | threshold, JList.cons v rest =>
    (if isContainer v then has_large_text_fields threshold v else false) ||
    largeList threshold rest
end

/- An `xml.etree.ElementTree` element: tag, attribute keys, children. -/
mutual
inductive Xml where
  | node : List Char → List (List Char) → XmlList → Xml

inductive XmlList where
  | nil : XmlList
  | cons : Xml → XmlList → XmlList
end

def XmlList.toList : XmlList → List Xml
  | .nil => []
  | .cons x rest => x :: XmlList.toList rest

def xmlTag : Xml → List Char
  | .node t _ _ => t

def xmlAttribKeys : Xml → List (List Char)
  | .node _ a _ => a

def xmlChildren : Xml → List Xml
  | .node _ _ ch => XmlList.toList ch

/- `FileClassifier._get_xml_depth`. -/
mutual
def xml_depth : Xml → Nat → Nat
  | .node _ _ ch, d => match ch with
    | .nil => d
    | _ => xmlList_depth ch (d + 1)

def xmlList_depth : XmlList → Nat → Nat
  | .nil, _ => 0
  | .cons x rest, d => max (xml_depth x d) (xmlList_depth rest d)
end

/-- The classifier's mutable scoring state. -/
structure Scores where
  sql : ℚ
  nosql : ℚ
  reasons : List String

def addSql (q : ℚ) (r : String) (s : Scores) : Scores :=
  { s with sql := s.sql + q, reasons := s.reasons ++ [r] }

def addNoSql (q : ℚ) (r : String) (s : Scores) : Scores :=
  { s with nosql := s.nosql + q, reasons := s.reasons ++ [r] }

/-- `FileClassifier._analyze_json`. -/
def analyze_json (data : JVal) (s0 : Scores) : Scores :=
  let s :=
    if is_flat_structure data 0 then
      addSql 4 "JSON is flat (no nested objects/arrays) - +4 SQL" s0
    else
      let nd := jval_depth data 0
      if nd > 0 then
        addNoSql 4 ("JSON contains nested objects (depth: " ++ toString nd ++
          ") - +4 NoSQL") s0
      else s0
  let s :=
    match data with
    | JVal.list l =>
      match JList.toList l with
      | [] => s
      | v0 :: _ =>
        if isDict v0 then
          match (JList.toList l).filterMap keysOf with
          | [] => s
          | k0 :: rest =>
            if (k0 :: rest).all (fun ks => keySetEq ks k0) then
              addSql 4 "JSON array with identical keys in each object - +4 SQL" s
            else
              addNoSql 3 "JSON arrays with inconsistent object structure - +3 NoSQL" s
        else s
    | _ => s
  let s :=
    if has_relational_patterns data then
      addSql 1 "Contains relational patterns (IDs, foreign keys) - +1 SQL" s
    else s
  let s :=
    if isContainer data && has_dynamic_keys data then
      addNoSql 2 "Dynamic keys that change across objects - +2 NoSQL" s
    else s
  let s :=
    if is_schema_consistent data then
      addSql 2 "Schema is consistent and predictable - +2 SQL" s
    else
      addNoSql 2 "Schema expected to grow or lack structure - +2 NoSQL" s
  let s :=
    if is_mostly_primitive data then
      addSql 1 "Mostly primitive fields (numbers, strings, booleans) - +1 SQL" s
    else s
  if has_large_text_fields 500 data then
    addNoSql 2 "Contains large free-text fields (content, description, html) - +2 NoSQL" s
  else s

/-- The content `_parse_file` hands to the analyzers: parsed JSON/YAML data,
a pandas DataFrame (its column names), `csv.DictReader` rows (their key
lists), an XML root, raw text, a parsed ini dict, or `None` for binary. -/
inductive FileContent where
  | jsonC : JVal → FileContent
  | tabularDF : List String → FileContent
  | tabularRows : List (List (List Char)) → FileContent
  | xmlC : Xml → FileContent
  | textC : List Char → FileContent
  | iniC : List (List Char × List Char) → FileContent
  | noneC : FileContent

/-- `FileClassifier._analyze_tabular`. -/
def analyze_tabular (content : FileContent) (s0 : Scores) : Scores :=
  let s := addSql 5 "File type is CSV/Excel (tabular) - +5 SQL" s0
  match content with
  | FileContent.tabularDF cols =>
    let s :=
      if cols.length > 0 then
        addSql 2 "Schema is consistent and predictable - +2 SQL" s
      else s
    if cols.any (fun c => isInfixB "id".data (c.data.map pyLowerChar)) then
      addSql 1 "Contains relational patterns (IDs) - +1 SQL" s
    else s
  | FileContent.tabularRows rows =>
    match rows with
    | [] => s
    | r0 :: _ =>
      if rows.all (fun r => keySetEq r r0) then
        addSql 2 "Schema is consistent and predictable - +2 SQL" s
      else s
  | _ => s

/-- `FileClassifier._analyze_xml`. -/
def analyze_xml (root : Xml) (s0 : Scores) : Scores :=
  let md := xml_depth root 0
  let s :=
    if md > 2 then
      addNoSql 3 ("Deeply nested XML (depth: " ++ toString md ++ ") - +3 NoSQL") s0
    else s0
  match xmlChildren root with
  | [] => s
  | c0 :: rest =>
    let children := c0 :: rest
    let s :=
      if (children.all fun c => xmlTag c == xmlTag c0) && children.length > 1 then
        addSql 3 "XML has repeating tags (records with same structure) - +3 SQL" s
      else s
    if children.length > 1 then
      if rest.all (fun c => keySetEq (xmlAttribKeys c) (xmlAttribKeys c0)) then
        addSql 2 "Schema is consistent and predictable - +2 SQL" s
      else s
    else s

/-- `FileClassifier._analyze_html`. -/
def analyze_html (html0 : List Char) (s0 : Scores) : Scores :=
  let html := html0.map pyLowerChar
  let tableCount := countOccur "<table".data html
  let s :=
    if tableCount > 0 then
      addSql 3 ("HTML contains well-formed tables (" ++ toString tableCount ++
        " tables) - +3 SQL") s0
    else s0
  let s :=
    if html.length > 5000 && tableCount == 0 then
      addNoSql 1 "HTML without structured tables (content-heavy) - +1 NoSQL" s
    else s
  if (stripTags html).length > 3000 then
    addNoSql 2 "Contains large free-text fields - +2 NoSQL" s
  else s

/-- `FileClassifier._analyze_yaml`. -/
def analyze_yaml (data : JVal) (s0 : Scores) : Scores :=
  let s :=
    if is_flat_structure data 0 then
      addSql 4 "YAML is flat (no nested objects) - +4 SQL" s0
    else
      let nd := jval_depth data 0
      if nd > 0 then
        addNoSql 4 ("YAML contains nested objects (depth: " ++ toString nd ++
          ") - +4 NoSQL") s0
      else s0
  if is_schema_consistent data then
    addSql 2 "Schema is consistent and predictable - +2 SQL" s
  else s

/-- Common CSV-likeness test: more than one field on the first line, and the
same field count on every non-blank line among the first ten. -/
def csvConsistent (sep : Char) (lines : List (List Char)) : Bool :=
  match lines with
  | [] => false
  | l0 :: _ =>
    let n := (splitOnChar sep l0).length
    n > 1 && (lines.take 10).all fun line =>
      if (pyStrip line).isEmpty then true
      else (splitOnChar sep line).length == n

/-- `FileClassifier._analyze_text`. -/
def analyze_text (text : List Char) (s0 : Scores) : Scores :=
  let s := addNoSql 3 "File is text-based (.txt, .md, .log) - +3 NoSQL" s0
  let s :=
    if text.length > 5000 then
      addNoSql 2 "Contains large free-text fields - +2 NoSQL" s
    else s
  let lines := splitOnChar '\n' text
  if lines.length > 1 && csvConsistent ',' lines then
    addSql 3 "Text contains tabular patterns (CSV-like) - +3 SQL" s
  else s

/-- `FileClassifier._analyze_document`. -/
def analyze_document (text : List Char) (s0 : Scores) : Scores :=
  let s := addNoSql 3 "File is document-based (PDF/DOCX extracted text) - +3 NoSQL" s0
  if text.length > 3000 then
    addNoSql 2 "Contains large free-text fields - +2 NoSQL" s
  else s

def endsWithChar (c : Char) (l : List Char) : Bool := startsWithChar c l.reverse

/-- Final step of `_analyze_unknown_text`: large free text. -/
def unknownLarge (text : List Char) (s : Scores) : Scores :=
  if text.length > 5000 then
    addNoSql 2 "Contains large free-text fields - +2 NoSQL" s
  else s

/-- XML-pattern step of `_analyze_unknown_text`: `xmlParsed` is the outcome
of `ET.fromstring` on the whole text (`none` when it raises `ParseError`). -/
def unknownXml (xmlParsed : Option Xml) (text : List Char) (s : Scores) : Scores :=
  if isPrefixB "<?xml".data (pyStrip text) || startsWithChar '<' (pyStrip text) then
    match xmlParsed with
    | some root =>
      analyze_xml root
        ({ s with nosql := s.nosql - 2,
                  reasons := s.reasons.dropLast ++
                    ["Unknown file type but contains valid XML - analyzing as XML"] })
    | none => unknownLarge text s
  else unknownLarge text s

/-- `FileClassifier._analyze_unknown_text`: `jsonParsed` is the outcome of
`json.loads` on the whole text (`none` when it raises). -/
def analyze_unknown_text (jsonParsed : Option JVal) (xmlParsed : Option Xml)
    (text : List Char) (s0 : Scores) : Scores :=
  let s := addNoSql 2 "Unknown file type - defaulting to NoSQL (unstructured)" s0
  let lines := if text.isEmpty then [] else splitOnChar '\n' text
  let s :=
    if lines.length > 1 && csvConsistent ',' lines then
      addSql 3 "Unknown file contains tabular patterns (CSV-like) - +3 SQL" s
    else s
  let s :=
    if lines.length > 1 && csvConsistent '\x09' lines then
      addSql 3 "Unknown file contains tabular patterns (TSV-like) - +3 SQL" s
    else s
  let stripped := pyStrip text
  if (startsWithChar '\x7b' stripped && endsWithChar '\x7d' stripped) ||
     (startsWithChar '[' stripped && endsWithChar ']' stripped) then
    match jsonParsed with
    | some d =>
      analyze_json d
        ({ s with nosql := s.nosql - 2,
                  reasons := s.reasons.dropLast ++
                    ["Unknown file type but contains valid JSON - analyzing as JSON"] })
    | none => unknownXml xmlParsed text s
  else unknownXml xmlParsed text s

/-- Extension table of `FileClassifier._detect_file_type`. -/
def type_map : List (String × String) :=
  [(".json", "json"), (".csv", "csv"), (".xlsx", "excel"), (".xls", "excel"),
   (".xml", "xml"), (".html", "html"), (".htm", "html"), (".txt", "text"),
   (".md", "md"), (".log", "log"), (".yaml", "yaml"), (".yml", "yaml"),
   (".ini", "ini"), (".cfg", "ini"), (".conf", "ini"), (".pdf", "pdf"),
   (".docx", "docx"), (".doc", "docx")]

/-- `FileClassifier._detect_file_type` on the lower-cased suffix. -/
def detect_file_type (ext : String) : String :=
  ((type_map.find? (fun p => p.1 == ext)).map Prod.snd).getD "unknown"

def upsertKV (cfg : List (List Char × List Char)) (k v : List Char) :
    List (List Char × List Char) :=
  if cfg.any (fun p => p.1 == k) then
    cfg.map (fun p => if p.1 == k then (k, v) else p)
  else cfg ++ [(k, v)]

/-- The ini branch of `_parse_file`: `key = value` lines into a dict. -/
def iniParse (content : List Char) : List (List Char × List Char) :=
  (splitOnChar '\n' content).foldl (fun cfg line =>
    let l := pyStrip line
    if !l.isEmpty && !startsWithChar '#' l && l.contains '=' then
      upsertKV cfg (pyStrip (l.takeWhile (· ≠ '=')))
        (pyStrip ((l.dropWhile (· ≠ '=')).drop 1))
    else cfg) []

/-- One existing on-disk file as the classifier sees it: its extension
(`path.suffix`), the availability flags of the optional parser libraries,
and the outcome of each external read/parse the code may perform on it
(`Except.error` models a raised exception, `none` an attempt that the code
catches). -/
structure InputFile where
  ext : String
  hasPandas : Bool
  hasYaml : Bool
  hasPdf : Bool
  hasDocx : Bool
  jsonLoad : Except String JVal
  pandasCsv : Except String (List String)
  csvRows : Except String (List (List (List Char)))
  pandasExcel : Except String (List String)
  xmlParse : Except String Xml
  utf8Read : Except String (List Char)
  yamlLoad : Except String JVal
  ignoreRead : List Char
  pdfExtract : Except String (List Char)
  docxExtract : Except String (List Char)
  unknownRead : Option (List Char)
  jsonLoads : Option JVal
  xmlFromString : Option Xml

/-- `FileClassifier._parse_file`. -/
def parse_file (f : InputFile) (ft : String) : Except String FileContent :=
  if ft == "json" then f.jsonLoad.map FileContent.jsonC
  else if ft == "csv" then
    if f.hasPandas then f.pandasCsv.map FileContent.tabularDF
    else f.csvRows.map FileContent.tabularRows
  else if ft == "excel" then
    if f.hasPandas then f.pandasExcel.map FileContent.tabularDF
    else Except.error "pandas required for Excel file parsing"
  else if ft == "xml" then f.xmlParse.map FileContent.xmlC
  else if ft == "html" then f.utf8Read.map FileContent.textC
  else if ft == "yaml" then
    if f.hasYaml then f.yamlLoad.map FileContent.jsonC
    else Except.error "pyyaml required for YAML file parsing"
  else if ft == "text" || ft == "log" || ft == "md" then
    Except.ok (FileContent.textC f.ignoreRead)
  else if ft == "pdf" then
    if f.hasPdf then f.pdfExtract.map FileContent.textC
    else Except.error "PyPDF2 required for PDF file parsing"
  else if ft == "docx" then
    if f.hasDocx then f.docxExtract.map FileContent.textC
    else Except.error "python-docx required for DOCX file parsing"
  else if ft == "ini" then
    f.utf8Read.map (fun t => FileContent.iniC (iniParse t))
  else
    match f.unknownRead with
    | some t => Except.ok (FileContent.textC t)
    | none => Except.ok FileContent.noneC

/-- Python `round(q)` to an integer, half to even. -/
def roundHalfEven (q : ℚ) : Int :=
  let f := ⌊q⌋
  let r := q - (f : ℚ)
  if r < 1/2 then f
  else if r > 1/2 then f + 1
  else if f % 2 = 0 then f else f + 1

/-- Python `round(q, 2)`. -/
def pyRound2 (q : ℚ) : ℚ := (roundHalfEven (q * 100) : ℚ) / 100

/-- The dictionary returned by `FileClassifier.classify`. -/
structure ClassifyResult where
  classification : String
  sql_score : ℚ
  nosql_score : ℚ
  confidence : ℚ
  reasons : List String
  file_type : String

/-- `FileClassifier.classify` after the file type `ft` has been detected:
parse (propagating exceptions), dispatch to the matching analyzer (the
tabular one raises a NameError when pandas is missing, since `pd` is then
unbound), and assemble the result. -/
def classifyCore (f : InputFile) (ft : String) : Except String ClassifyResult :=
  match parse_file f ft with
  | Except.error e => Except.error e
  | Except.ok content =>
    let s0 : Scores := { sql := 0, nosql := 0, reasons := [] }
    let sE : Except String Scores :=
      if ft == "json" then
        Except.ok (match content with
          | FileContent.jsonC d => analyze_json d s0
          | _ => s0)
      else if ft == "csv" || ft == "excel" then
        if f.hasPandas then Except.ok (analyze_tabular content s0)
        else Except.error "name \x27pd\x27 is not defined"
      else if ft == "xml" then
        Except.ok (match content with
          | FileContent.xmlC r => analyze_xml r s0
          | _ => s0)
      else if ft == "html" then
        Except.ok (match content with
          | FileContent.textC t => analyze_html t s0
          | _ => s0)
      else if ft == "yaml" then
        Except.ok (match content with
          | FileContent.jsonC d => analyze_yaml d s0
          | _ => s0)
      else if ft == "text" || ft == "log" || ft == "md" then
        Except.ok (match content with
          | FileContent.textC t => analyze_text t s0
          | _ => s0)
      else if ft == "pdf" || ft == "docx" then
        Except.ok (match content with
          | FileContent.textC t => analyze_document t s0
          | _ => s0)
      else
        Except.ok (match content with
          | FileContent.noneC =>
            addNoSql 2 "Unknown binary file type - defaulting to NoSQL (unstructured)" s0
          | FileContent.textC t =>
            analyze_unknown_text f.jsonLoads f.xmlFromString t s0
          | _ =>
            addNoSql 2 "Unknown file type - defaulting to NoSQL (unstructured)" s0)
    match sE with
    | Except.error e => Except.error e
    | Except.ok s =>
      Except.ok {
        classification := if s.nosql ≤ s.sql then "SQL" else "NoSQL",
        sql_score := pyRound2 s.sql,
        nosql_score := pyRound2 s.nosql,
        confidence := pyRound2 (|s.sql - s.nosql| / max 1 (max s.sql s.nosql)),
        reasons := s.reasons,
        file_type := ft }

/-- `FileClassifier.classify` for an existing file. -/
def classify (f : InputFile) : Except String ClassifyResult :=
  classifyCore f (detect_file_type (pyLowerStr f.ext))

/-- The C4 claim: classification never fails on an existing file. -/
def C4Claim : Prop := ∀ f : InputFile, ∃ r, classify f = Except.ok r

/-- A `.json` file whose content is malformed: `json.load` raises. -/
def badJson : InputFile :=
  { ext := ".json"
    hasPandas := true, hasYaml := true, hasPdf := true, hasDocx := true
    jsonLoad := Except.error "Expecting value: line 1 column 1 (char 0)"
    pandasCsv := Except.ok []
    csvRows := Except.ok []
    pandasExcel := Except.ok []
    xmlParse := Except.error "ParseError"
    utf8Read := Except.ok []
    yamlLoad := Except.ok JVal.null
    ignoreRead := []
    pdfExtract := Except.ok []
    docxExtract := Except.ok []
    unknownRead := none
    jsonLoads := none
    xmlFromString := none }

/-- A file with an unrecognised extension and plain text content. -/
def unkFile : InputFile :=
  { badJson with
    ext := ".bin"
    jsonLoad := Except.ok JVal.null
    unknownRead := some "hello".data }

/-! ## Text ingestion (`pipeline.py`, `_process_text_file` / `_write_embeddings`,
and `graph_writer.py`, `upsert_nodes`) -/

/-- A node handed to the embedding writer. -/
structure GraphNode where
  id : String
  text : List Char
  embedding : List ℚ

/-- External outcomes of one `_process_text_file` run: the text extractor,
the storage-path/copy steps, the metadata and chunk writers (which may raise),
the ChromaDB collection's availability, the optional text encoder and the
ChromaDB upsert call. -/
structure TextPipelineEnv where
  extract_full_text : Option (List Char)
  preMeta : Except String Unit
  meta_generator : Except String String
  chunk_generator : Except String Nat
  graphAvailable : Bool
  textEncoder : Option (List Char → Option (List ℚ))
  chromaUpsert : List GraphNode → Except String (List String)

/-- `NoSQLIngestionPipeline._embed_text`: `None` for empty text, a missing
encoder, or an encoder failure. -/
def embed_text (env : TextPipelineEnv) (text : List Char) : Option (List ℚ) :=
  if text.isEmpty then none
  else match env.textEncoder with
    | none => none
    | some enc => enc text

/-- `GraphEmbeddingWriter.upsert_nodes`: `[]` when the collection is missing
or there is nothing to write, otherwise the ChromaDB call. -/
def upsert_nodes (env : TextPipelineEnv) (nodes : List GraphNode) :
    Except String (List String) :=
  if env.graphAvailable = false || nodes.isEmpty then Except.ok []
  else env.chromaUpsert nodes

/-- `NoSQLIngestionPipeline._write_embeddings` for the text pipeline (no
precomputed file embedding): short-circuits to `[]` when the writer is
unavailable, otherwise builds the file node (when the summary embeds) and one
node per chunk whose text embeds, and upserts them. -/
def write_embeddings (env : TextPipelineEnv) (file_id : String)
    (summary : List Char) (chunk_texts : List (List Char)) :
    Except String (List String) :=
  if env.graphAvailable = false then Except.ok []
  else
    let fileNodes : List GraphNode :=
      match embed_text env summary with
      | none => []
      | some e => [{ id := file_id ++ ":file", text := summary, embedding := e }]
    let chunkNodes : List GraphNode :=
      chunk_texts.enum.filterMap fun p =>
        match embed_text env p.2 with
        | none => none
        | some e => some { id := file_id ++ ":chunk:" ++ toString p.1,
                           text := p.2, embedding := e }
    upsert_nodes env (fileNodes ++ chunkNodes)

/-- The result envelope fields the claims speak about. -/
structure NoSQLProcessingResult where
  status : String
  error : Option String
  file_id : Option String
  chunk_count : Nat
  graph_nodes : List String

/-- `NoSQLIngestionPipeline._process_text_file`: extraction, empty-text
fallback, summary, metadata, chunking (failure tolerated), embeddings
(failure tolerated), and the completed envelope. -/
def process_text_file (env : TextPipelineEnv) (pathName : String) :
    NoSQLProcessingResult :=
  match env.extract_full_text with
  | none =>
    { status := "error",
      error := some ("Text extraction failed for " ++ pathName ++
        ". Extraction returned None."),
      file_id := none, chunk_count := 0, graph_nodes := [] }
  | some rawExtract =>
    let raw_text : List Char :=
      if (pyStrip rawExtract).isEmpty then ("PDF document: " ++ pathName).data
      else rawExtract
    let summary := build_summary raw_text pathName.data
    match env.preMeta with
    | Except.error m =>
      { status := "error", error := some ("Text processing failed: " ++ m),
        file_id := none, chunk_count := 0, graph_nodes := [] }
    | Except.ok _ =>
      match env.meta_generator with
      | Except.error m =>
        { status := "error",
          error := some ("Metadata generation failed: " ++ m),
          file_id := none, chunk_count := 0, graph_nodes := [] }
      | Except.ok fid =>
        let chunks : Nat × List (List Char) :=
          match env.chunk_generator with
          | Except.error _ => (0, [])
          | Except.ok n => (n, simple_character_chunker raw_text 1000 200)
        let graph_nodes : List String :=
          match write_embeddings env fid summary chunks.2 with
          | Except.ok ns => ns
          | Except.error _ => []
        { status := "completed", error := none, file_id := some fid,
          chunk_count := chunks.1, graph_nodes := graph_nodes }

/-- A concrete environment whose embedding writer is unavailable. -/
def c9Env : TextPipelineEnv :=
  { extract_full_text := some "Hello world.".data
    preMeta := Except.ok ()
    meta_generator := Except.ok "f1"
    chunk_generator := Except.ok 1
    graphAvailable := false
    textEncoder := none
    chromaUpsert := fun _ => Except.ok [] }

/-! ## Theorems -/

theorem allowedChar_pyLower {c : Char} (h : allowedChar c) : pyLowerChar c = c := by
  simp only [allowedChar, Bool.or_eq_true, Bool.and_eq_true, decide_eq_true_eq,
    beq_iff_eq] at h
  unfold pyLowerChar
  rcases h with (⟨h1, h2⟩ | ⟨h1, h2⟩) | h
  · rw [if_neg (by omega)]
  · rw [if_neg (by omega)]
  · subst h; decide

theorem subRunsAux_of_no_match (p : Char → Bool) :
    ∀ (l : List Char) (b : Bool), (∀ c ∈ l, p c = false) → subRunsAux p l b = l := by
  intro l
  induction l with
  | nil => intro b _; rfl
  | cons c cs ih =>
    intro b h
    have hc : p c = false := h c (List.mem_cons_self c cs)
    rw [subRunsAux, if_neg (by simp [hc])]
    rw [ih false (fun d hd => h d (List.mem_cons_of_mem c hd))]

theorem mem_subRunsAux (p : Char → Bool) :
    ∀ (l : List Char) (b : Bool), ∀ c ∈ subRunsAux p l b,
      (p c = false ∧ c ∈ l) ∨ c = '_' := by
  intro l
  induction l with
  | nil => intro b c h; simp [subRunsAux] at h
  | cons c cs ih =>
    intro b d hd
    rw [subRunsAux] at hd
    by_cases hc : p c
    · rw [if_pos hc] at hd
      cases b with
      | true =>
        simp only [if_pos] at hd
        rcases ih true d hd with ⟨h1, h2⟩ | h
        · exact Or.inl ⟨h1, List.mem_cons_of_mem c h2⟩
        · exact Or.inr h
      | false =>
        simp only [Bool.false_eq_true, if_false] at hd
        rcases List.mem_cons.mp hd with h | h
        · exact Or.inr h
        · rcases ih true d h with ⟨h1, h2⟩ | h'
          · exact Or.inl ⟨h1, List.mem_cons_of_mem c h2⟩
          · exact Or.inr h'
    · rw [if_neg hc] at hd
      rcases List.mem_cons.mp hd with h | h
      · refine Or.inl ⟨?_, ?_⟩
        · rw [h]; simpa using hc
        · rw [h]; exact List.mem_cons_self c cs
      · rcases ih false d h with ⟨h1, h2⟩ | h'
        · exact Or.inl ⟨h1, List.mem_cons_of_mem c h2⟩
        · exact Or.inr h'

theorem head_subRunsAux_true (l : List Char) :
    (subRunsAux (· == '_') l true).head? ≠ some '_' := by
  induction l with
  | nil => simp [subRunsAux]
  | cons c cs ih =>
    rw [subRunsAux]
    by_cases hc : c = '_'
    · rw [if_pos (by simpa using hc)]
      simpa using ih
    · rw [if_neg (by simpa using hc)]
      simp only [List.head?_cons, ne_eq, Option.some.injEq]
      exact hc

theorem noDoubleUS_subRunsAux :
    ∀ (l : List Char) (b : Bool), NoDoubleUS (subRunsAux (· == '_') l b) := by
  intro l
  induction l with
  | nil => intro b; simp [subRunsAux, NoDoubleUS]
  | cons c cs ih =>
    intro b
    rw [subRunsAux]
    by_cases hc : c = '_'
    · rw [if_pos (by simpa using hc)]
      cases b with
      | true => exact ih true
      | false =>
        simp only [Bool.false_eq_true, if_false]
        unfold NoDoubleUS
        refine List.chain'_cons'.mpr ⟨?_, ih true⟩
        intro y hy
        right
        intro hy'
        exact head_subRunsAux_true cs (hy' ▸ hy)
    · rw [if_neg (by simpa using hc)]
      unfold NoDoubleUS
      refine List.chain'_cons'.mpr ⟨?_, ih false⟩
      intro y _
      exact Or.inl hc

theorem subRunsAux_of_noDouble :
    ∀ l : List Char, NoDoubleUS l →
      subRunsAux (· == '_') l false = l ∧
      (l.head? ≠ some '_' → subRunsAux (· == '_') l true = l) := by
  intro l
  induction l with
  | nil => intro _; exact ⟨rfl, fun _ => rfl⟩
  | cons c cs ih =>
    intro h
    have hcs : NoDoubleUS cs := (List.chain'_cons'.mp h).2
    have hhead : c = '_' → cs.head? ≠ some '_' := by
      intro hc hy
      cases cs with
      | nil => simp at hy
      | cons d ds =>
        simp only [List.head?_cons, Option.some.injEq] at hy
        have := (List.chain'_cons'.mp h).1 d (by simp)
        rcases this with h' | h'
        · exact h' hc
        · exact h' hy
    constructor
    · rw [subRunsAux]
      by_cases hc : c = '_'
      · rw [if_pos (by simpa using hc)]
        simp only [Bool.false_eq_true, if_false]
        rw [(ih hcs).2 (hhead hc), hc]
      · rw [if_neg (by simpa using hc), (ih hcs).1]
    · intro hh
      have hc : c ≠ '_' := by simpa using hh
      rw [subRunsAux, if_neg (by simpa using hc), (ih hcs).1]

theorem mem_of_mem_dropWhile {p : Char → Bool} :
    ∀ {l : List Char} {c : Char}, c ∈ l.dropWhile p → c ∈ l := by
  intro l
  induction l with
  | nil => intro c h; simp [List.dropWhile] at h
  | cons d ds ih =>
    intro c h
    rw [List.dropWhile_cons] at h
    by_cases hd : p d
    · rw [if_pos hd] at h
      exact List.mem_cons_of_mem d (ih h)
    · rw [if_neg hd] at h
      exact h

theorem chain'_dropWhile {R : Char → Char → Prop} {p : Char → Bool} :
    ∀ {l : List Char}, l.Chain' R → (l.dropWhile p).Chain' R := by
  intro l
  induction l with
  | nil => intro _; simp [List.dropWhile]
  | cons d ds ih =>
    intro h
    rw [List.dropWhile_cons]
    by_cases hd : p d
    · rw [if_pos hd]
      exact ih (List.chain'_cons'.mp h).2
    · rw [if_neg hd]
      exact h

theorem head_dropWhile_false (p : Char → Bool) :
    ∀ (l : List Char) (c : Char), (l.dropWhile p).head? = some c → p c = false := by
  intro l
  induction l with
  | nil => intro c h; simp [List.dropWhile] at h
  | cons d ds ih =>
    intro c h
    rw [List.dropWhile_cons] at h
    by_cases hd : p d
    · rw [if_pos hd] at h
      exact ih c h
    · rw [if_neg hd] at h
      simp only [List.head?_cons, Option.some.injEq] at h
      subst h
      simpa using hd

theorem mem_stripUnderscore {l : List Char} {c : Char} (h : c ∈ stripUnderscore l) : c ∈ l := by
  unfold stripUnderscore at h
  rw [List.mem_reverse] at h
  have h1 := mem_of_mem_dropWhile h
  rw [List.mem_reverse] at h1
  exact mem_of_mem_dropWhile h1

theorem noDoubleUS_stripUnderscore {l : List Char} (h : NoDoubleUS l) :
    NoDoubleUS (stripUnderscore l) := by
  unfold NoDoubleUS stripUnderscore at *
  rw [List.chain'_reverse]
  apply List.Chain'.imp (R := fun a b => a ≠ '_' ∨ b ≠ '_')
  · intro a b hab
    exact hab.symm
  · apply chain'_dropWhile
    rw [List.chain'_reverse]
    apply List.Chain'.imp (R := fun a b => a ≠ '_' ∨ b ≠ '_')
    · intro a b hab
      exact hab.symm
    · exact chain'_dropWhile h

theorem getLast?_stripUnderscore_ne (l : List Char) :
    (stripUnderscore l).getLast? ≠ some '_' := by
  unfold stripUnderscore
  rw [List.getLast?_reverse]
  intro h
  have := head_dropWhile_false (· == '_') _ _ h
  simp at this

theorem getLast?_dropWhile {p : Char → Bool} :
    ∀ {l : List Char}, l.dropWhile p ≠ [] → (l.dropWhile p).getLast? = l.getLast? := by
  intro l
  induction l with
  | nil => intro h; simp [List.dropWhile] at h
  | cons d ds ih =>
    intro h
    rw [List.dropWhile_cons] at h ⊢
    by_cases hd : p d
    · rw [if_pos hd] at h ⊢
      rw [ih h]
      cases ds with
      | nil => simp [List.dropWhile] at h
      | cons e es => rw [List.getLast?_cons_cons]
    · rw [if_neg hd]

theorem head?_stripUnderscore_ne (l : List Char) :
    (stripUnderscore l).head? ≠ some '_' := by
  unfold stripUnderscore
  rw [List.head?_reverse]
  intro h
  set m := (l.dropWhile (· == '_')) with hm
  have hne : m.reverse.dropWhile (· == '_') ≠ [] := by
    intro hnil
    rw [hnil] at h
    simp at h
  rw [getLast?_dropWhile hne, List.getLast?_reverse] at h
  have := head_dropWhile_false (· == '_') l '_' h
  simp at this

theorem normed_fixed {l : List Char} (h : Normed l) : normChars l = l := by
  obtain ⟨hall, hnd, hh, hl⟩ := h
  unfold normChars
  have h1 : l.map pyLowerChar = l := by
    rw [show l.map pyLowerChar = l.map id from
      List.map_congr_left (fun c hc => allowedChar_pyLower (hall c hc)), List.map_id]
  have h2 : subRuns (fun c => !allowedChar c) l = l :=
    subRunsAux_of_no_match _ l false (fun c hc => by simp [hall c hc])
  have h3 : subRuns (· == '_') l = l := (subRunsAux_of_noDouble l hnd).1
  rw [h1, h2, h3]
  exact stripUnderscore_of_clean l hh hl
where
  stripUnderscore_of_clean (l : List Char)
      (h1 : l.head? ≠ some '_') (h2 : l.getLast? ≠ some '_') :
      stripUnderscore l = l := by
    unfold stripUnderscore
    have hd : l.dropWhile (· == '_') = l := by
      cases l with
      | nil => rfl
      | cons c cs =>
        have : c ≠ '_' := by simpa using h1
        rw [List.dropWhile_cons, if_neg (by simpa using this)]
    rw [hd]
    have hr : l.reverse.dropWhile (· == '_') = l.reverse := by
      cases hl : l.reverse with
      | nil => rfl
      | cons c cs =>
        have hc : l.getLast? = some c := by
          rw [← List.head?_reverse, hl]
          rfl
        have : c ≠ '_' := fun hc' => h2 (hc' ▸ hc)
        rw [List.dropWhile_cons, if_neg (by simpa using this)]
    rw [hr, List.reverse_reverse]

theorem normed_normChars (l : List Char) : Normed (normChars l) := by
  unfold normChars
  refine ⟨?_, ?_, ?_, ?_⟩
  · intro c hc
    have h1 := mem_stripUnderscore hc
    rcases mem_subRunsAux (· == '_') _ false c h1 with ⟨_, h2⟩ | h2
    · rcases mem_subRunsAux (fun c => !allowedChar c) _ false c h2 with ⟨h3, _⟩ | h3
      · simpa using h3
      · subst h3; rfl
    · subst h2; rfl
  · exact noDoubleUS_stripUnderscore (noDoubleUS_subRunsAux _ false)
  · exact head?_stripUnderscore_ne _
  · exact getLast?_stripUnderscore_ne _

/-- C6: attribute normalization is idempotent: lowercasing, replacing
non-alphanumeric runs with underscores, collapsing repeated underscores and
trimming edge underscores is a fixed point after one application. -/
theorem normalize_attribute_idem (x : String) :
    normalize_attribute (normalize_attribute x) = normalize_attribute x := by
  unfold normalize_attribute
  by_cases hx : x = ""
  · simp [hx]
  · rw [if_neg hx]
    by_cases hy : String.mk (normChars x.data) = ""
    · rw [if_pos hy]
      exact hy.symm
    · rw [if_neg hy]
      have : (String.mk (normChars x.data)).data = normChars x.data := rfl
      rw [this, normed_fixed (normed_normChars x.data)]

theorem dedup_const {α : Type} [DecidableEq α] (a : α) :
    ∀ l : List α, l ≠ [] → (∀ x ∈ l, x = a) → l.dedup = [a] := by
  intro l
  induction l with
  | nil => intro h _; exact absurd rfl h
  | cons c cs ih =>
    intro _ h
    have hc : c = a := h c (List.mem_cons_self c cs)
    subst hc
    by_cases hnil : cs = []
    · subst hnil
      simp
    · have hdedup : cs.dedup = [c] := ih hnil (fun x hx => h x (List.mem_cons_of_mem c hx))
      have hmem : c ∈ cs := List.mem_dedup.mp (by rw [hdedup]; exact List.mem_singleton.mpr rfl)
      rw [List.dedup_cons_of_mem hmem, hdedup]

/-- C5 (counterexample): a column consisting of one 256-character plain
string is typed `TEXT` by the code even though the claim, whose cap is 1000,
predicts `VARCHAR`. -/
theorem c5_counterexample : ¬ C5Claim := by
  intro h
  have h256 := h [PyVal.str (String.mk (List.replicate 256 'x'))] (by simp)
    (fun v hv => ⟨String.mk (List.replicate 256 'x'), List.mem_singleton.mp hv⟩)
  revert h256
  set_option maxRecDepth 20000 in decide

theorem foldl_max_le {b : Nat} :
    ∀ (ns : List Nat) (init : Nat), init ≤ b → (∀ n ∈ ns, n ≤ b) →
      ns.foldl Nat.max init ≤ b := by
  intro ns
  induction ns with
  | nil => intro init h _; simpa using h
  | cons m ms ih =>
    intro init h hns
    simp only [List.foldl_cons]
    exact ih (Nat.max init m)
      (Nat.max_le.mpr ⟨h, hns m (List.mem_cons_self m ms)⟩)
      (fun n hn => hns n (List.mem_cons_of_mem m hn))

theorem infer_type_varchar_len {s : String} (h : infer_type (PyVal.str s) = "VARCHAR") :
    s.length ≤ 255 := by
  by_contra hgt
  push_neg at hgt
  simp only [infer_type] at h
  by_cases hc : 10 < s.length ∧ ('T' ∈ s.data ∨ '-' ∈ s.data)
  · rw [if_pos hc] at h
    exact absurd h (by decide)
  · rw [if_neg hc, if_pos (by omega)] at h
    exact absurd h (by decide)

/-- C5 (amended): when every sampled value is a plain short string — one
that `infer_type` classifies as `VARCHAR`, i.e. not timestamp-looking and no
longer than 255 characters — and the maximum sampled length `m` is positive,
the inferred column type is `VARCHAR(((m / 50) + 1) * 50)`, the smallest
multiple of 50 strictly greater than `m`; this size never exceeds 300, so the
1000 cap in the code is unreachable, and the `TEXT` fallback happens for
strings longer than 255, not 1000. -/
theorem infer_column_type_all_varchar (values : List PyVal)
    (hne : values ≠ [])
    (hstr : ∀ v ∈ values, ∃ s : String, v = PyVal.str s ∧ infer_type v = "VARCHAR")
    (hpos : 0 < maxSampledLen values) :
    infer_column_type values =
      "VARCHAR(" ++ toString ((maxSampledLen values / 50 + 1) * 50) ++ ")" ∧
    (maxSampledLen values / 50 + 1) * 50 ≤ 300 := by
  have hnone : ∀ v ∈ values, (!v.isNone) = true := by
    intro v hv
    obtain ⟨s, hs, _⟩ := hstr v hv
    subst hs
    rfl
  have hfilter : values.filter (fun v => !v.isNone) = values :=
    List.filter_eq_self.mpr hnone
  have hlen255 : ∀ v ∈ values, (pyStr v).length ≤ 255 := by
    intro v hv
    obtain ⟨s, hs, htype⟩ := hstr v hv
    subst hs
    simpa only [pyStr] using infer_type_varchar_len htype
  have hmax255 : maxSampledLen values ≤ 255 := by
    unfold maxSampledLen
    rw [hfilter]
    refine foldl_max_le _ 0 (by omega) ?_
    intro n hn
    obtain ⟨v, hv, hvn⟩ := List.mem_map.mp hn
    exact hvn ▸ hlen255 v (List.mem_of_mem_take hv)
  have hround : (maxSampledLen values / 50 + 1) * 50 ≤ 300 := by
    have h5 : maxSampledLen values / 50 ≤ 5 :=
      Nat.le_of_lt_succ (Nat.div_lt_of_lt_mul (by omega))
    omega
  refine ⟨?_, hround⟩
  have hvarchar : inferredPgType values = "VARCHAR" := by
    unfold inferredPgType
    rw [hfilter]
    have hdedup : ((values.take 100).map infer_type).dedup = ["VARCHAR"] := by
      apply dedup_const
      · intro h
        have h2 := List.map_eq_nil_iff.mp h
        apply hne
        cases values with
        | nil => rfl
        | cons v vs => simp [List.take] at h2
      · intro x hx
        obtain ⟨v, hv, hvx⟩ := List.mem_map.mp hx
        obtain ⟨s, hs, htype⟩ := hstr v (List.mem_of_mem_take hv)
        exact hvx ▸ htype
    rw [hdedup]
  unfold infer_column_type
  rw [if_neg (by simpa using hne), hfilter, if_neg (by simpa using hne),
    if_pos hvarchar, if_neg (by omega), if_pos hpos]
  have hmin : Nat.min ((maxSampledLen values / 50 + 1) * 50) 1000 =
      (maxSampledLen values / 50 + 1) * 50 :=
    Nat.min_eq_left (by omega)
  rw [hmin]

/-- C5 witness: a single 3-character string yields `VARCHAR(50)`. -/
theorem infer_column_type_all_varchar_witness :
    infer_column_type [PyVal.str "abc"] =
      "VARCHAR(" ++ toString ((maxSampledLen [PyVal.str "abc"] / 50 + 1) * 50) ++ ")" ∧
    (maxSampledLen [PyVal.str "abc"] / 50 + 1) * 50 ≤ 300 :=
  infer_column_type_all_varchar [PyVal.str "abc"] (by simp)
    (fun v hv => by
      rw [List.mem_singleton] at hv
      exact ⟨"abc", hv, by rw [hv]; decide⟩)
    (by decide)

/-! ### C3 -/

theorem string_eq_empty_of_data {s : String} (h : s.data = []) : s = "" := by
  cases s with
  | mk d =>
    simp only [String.data] at h
    rw [h]

theorem extendFwd_bhi_zero (a b : List Char) (ahi : Nat) (jf : Bool) :
    ∀ (fuel : Nat) (st : Nat × Nat × Nat), extendFwd a b ahi 0 jf fuel st = st := by
  intro fuel
  induction fuel with
  | zero => intro st; rfl
  | succ n _ =>
    intro st
    obtain ⟨i, j, k⟩ := st
    rw [extendFwd, if_neg]
    intro hcond
    exact absurd hcond.2.1 (by omega)

theorem flmRows_nil_b (a : List Char) (blo bhi : Nat) :
    ∀ (idxs : List Nat) (j2len : List (Nat × Nat)) (best : Nat × Nat × Nat),
      flmRows a [] blo bhi idxs j2len best = best := by
  intro idxs
  induction idxs with
  | nil => intro _ _; rfl
  | cons i rest ih =>
    intro j2len best
    rw [flmRows]
    have hb2j : b2j [] (a.getD i ' ') = [] := by
      unfold b2j positionsOf
      split
      · rfl
      · simp
    rw [hb2j]
    simp only [List.takeWhile_nil, List.filter_nil]
    exact ih [] best

theorem smRatio_nil_left {l : List Char} (h : l ≠ []) : smRatio [] l = 0 := by
  unfold smRatio
  rw [if_neg (by simpa using h)]
  have hm : matchesSum [] l (List.length ([] : List Char) + l.length + 1) 0
      (List.length ([] : List Char)) 0 l.length = 0 := rfl
  rw [hm]
  simp

theorem smRatio_nil_right {l : List Char} (h : l ≠ []) : smRatio l [] = 0 := by
  unfold smRatio
  rw [if_neg (by simpa using h)]
  have hbase : flmBase l [] 0 l.length 0 0 = (0, 0, 0) := by
    unfold flmBase
    rw [flmRows_nil_b]
  have hs1 : flmStage1 l [] 0 l.length 0 0 = (0, 0, 0) := by
    unfold flmStage1
    rw [hbase]
    rfl
  have hs2 : flmStage2 l [] 0 l.length 0 0 = (0, 0, 0) := by
    unfold flmStage2
    rw [hs1, extendFwd_bhi_zero]
  have hs3 : flmStage3 l [] 0 l.length 0 0 = (0, 0, 0) := by
    unfold flmStage3
    rw [hs2]
    rfl
  have hflm : find_longest_match l [] 0 l.length 0 0 = (0, 0, 0) := by
    unfold find_longest_match
    rw [hs3, extendFwd_bhi_zero]
  have hm : matchesSum l [] (l.length + List.length ([] : List Char) + 1) 0
      l.length 0 (List.length ([] : List Char)) = 0 := by
    simp only [List.length_nil, Nat.add_zero]
    rw [matchesSum, hflm]
    rfl
  rw [hm]
  simp

unseal Rat.mul Rat.add Rat.inv Rat.sub in
/-- C3 (counterexample): at `("price", "price")` with integer sample value 1
and existing type `NUMERIC`, the code scores `0.7·1 + 0.3·0.8 = 0.94`
(the same-group branch of `calculate_type_compatibility` returns 0.8 before
the 0.9 numeric branch can fire), while the claim's table predicts
`0.7·1 + 0.3·0.9 = 0.97`. -/
theorem c3_counterexample : ¬ C3Claim := by
  intro h
  have hinst := h "price" "price" (some (PyVal.int 1)) "NUMERIC" (by decide)
  revert hinst
  decide

theorem mem_of_mem_two {t : String} (h : t = "VARCHAR" ∨ t = "TEXT") :
    t ∈ textFamily3 := by
  simp only [textFamily3, List.mem_cons, List.not_mem_nil, or_false]
  tauto

/-- The code's type-compatibility table equals the amended table: the
`compatible_groups` loop returns 0.8 for every same-family pair, making both
0.9 branches dead code. -/
theorem calculate_type_compatibility_amended (t1 t2 : String) :
    calculate_type_compatibility t1 t2 = amendedTypeCompat t1 t2 := by
  unfold calculate_type_compatibility amendedTypeCompat
  by_cases h12 : t1 = t2
  · rw [if_pos h12, if_pos h12]
  · rw [if_neg h12, if_neg h12]
    by_cases hn : t1 ∈ numericFamily ∧ t2 ∈ numericFamily
    · simp [hn]
    · by_cases ht : t1 ∈ textFamily3 ∧ t2 ∈ textFamily3
      · simp [hn, ht]
      · by_cases hd : t1 ∈ datetimeFamily ∧ t2 ∈ datetimeFamily
        · simp [hn, ht, hd]
        · have hvt : ¬((t1 = "VARCHAR" ∨ t1 = "TEXT") ∧ (t2 = "VARCHAR" ∨ t2 = "TEXT")) := by
            intro hc
            exact ht ⟨mem_of_mem_two hc.1, mem_of_mem_two hc.2⟩
          simp [hn, ht, hd, hvt]

/-- Outside the exact and synonym branches, the code's
`calculate_levenshtein_similarity` is exactly the `SequenceMatcher` ratio of
the normalized forms (its early 0.0 return for an empty side agrees with the
ratio). -/
theorem levenshtein_eq_smRatio {a b : String}
    (h : normalize_attribute a ≠ normalize_attribute b) :
    calculate_levenshtein_similarity a b =
      smRatio (normalize_attribute a).data (normalize_attribute b).data := by
  unfold calculate_levenshtein_similarity
  by_cases h1 : normalize_attribute a = ""
  · rw [if_pos (Or.inl h1), h1]
    have h2 : (normalize_attribute b).data ≠ [] := by
      intro hd
      exact h (h1.trans (string_eq_empty_of_data hd).symm)
    exact (smRatio_nil_left h2).symm
  · by_cases h2 : normalize_attribute b = ""
    · rw [if_pos (Or.inr h2), h2]
      have h1' : (normalize_attribute a).data ≠ [] := by
        intro hd
        exact h ((string_eq_empty_of_data hd).trans h2.symm)
      exact (smRatio_nil_right h1').symm
    · rw [if_neg (by tauto), if_neg h]

/-- C3 (amended): the combined score is `0.7 × name + 0.3 × type` where the
name similarity is 1.0 for exact normalized equality, else 0.95 for a shared
synonym class (even when the raw `SequenceMatcher` ratio is higher), else the
maximum of the `SequenceMatcher` ratio and 0.8 × token overlap; and the type
compatibility is 1.0 for equal types, 0.8 within the numeric, text and
datetime families, 0.7 for a known type without sample value, 1.0 when the
existing type is absent or empty, and 0.3 otherwise. -/
theorem calculate_attribute_similarity_amended (a b : String)
    (v : Option PyVal) (t : Option String) :
    calculate_attribute_similarity a b v t =
      7/10 * amendedNameSimilarity a b + 3/10 * amendedTypeCompatOpt v t := by
  unfold calculate_attribute_similarity
  have hname : codeNameSimilarity a b = amendedNameSimilarity a b := by
    unfold codeNameSimilarity amendedNameSimilarity
    by_cases h1 : normalize_attribute a = normalize_attribute b
    · rw [if_pos h1, if_pos h1]
    · rw [if_neg h1, if_neg h1]
      by_cases h2 : are_synonyms a b = true
      · rw [if_pos h2, if_pos h2]
      · rw [if_neg h2, if_neg h2, levenshtein_eq_smRatio h1,
          mul_comm (calculate_token_overlap a b) (4/5)]
  have htype : codeTypeCompatibility v t = amendedTypeCompatOpt v t := by
    cases t with
    | none => rfl
    | some ty =>
      dsimp only [codeTypeCompatibility, amendedTypeCompatOpt]
      by_cases hty : ty = ""
      · rw [if_pos hty, if_pos hty]
      · rw [if_neg hty, if_neg hty]
        cases v with
        | none => rfl
        | some val => exact calculate_type_compatibility_amended (infer_type val) ty
  rw [hname, htype]

/-! ### C2 -/

/-- C2 (counterexample): with new attributes `["id", "user_id"]` and the
single existing column `["user_id"]`, the partial-containment ID rule maps
`"id" → "user_id"` and the exact rule maps `"user_id" → "user_id"`: one
existing attribute is the target of two different new attributes. -/
theorem c2_counterexample : ¬ C2Claim := by
  intro h
  exact h ["id", "user_id"] ["user_id"] Option.none Option.none "id" "user_id" "user_id"
    (by decide) (by decide) (by decide)

theorem mem_smapInsert {m : SMap} {k v : String} {p : String × String}
    (h : p ∈ smapInsert m k v) : p ∈ m ∨ p = (k, v) := by
  unfold smapInsert at h
  by_cases hc : m.any (fun p => p.1 == k)
  · rw [if_pos hc] at h
    obtain ⟨q, hq, hpq⟩ := List.mem_map.mp h
    by_cases hqk : q.1 == k
    · rw [if_pos hqk] at hpq
      exact Or.inr hpq.symm
    · rw [if_neg hqk] at hpq
      exact Or.inl (hpq ▸ hq)
  · rw [if_neg hc] at h
    rcases List.mem_append.mp h with h' | h'
    · exact Or.inl h'
    · exact Or.inr (List.mem_singleton.mp h')

theorem keysAllId_matchIdOne {ex allIds : List String} {st : SMap × List String}
    {a : String} (hst : KeysAllId st.1) (ha : is_id_attribute a = true) :
    KeysAllId (matchIdOne ex allIds st a).1 := by
  have hins : ∀ v, KeysAllId (smapInsert st.1 a v) := by
    intro v p hp
    rcases mem_smapInsert hp with h | h
    · exact hst p h
    · rw [h]
      exact ha
  unfold matchIdOne
  cases h1 : ex.find? (fun e => normalize_attribute e == normalize_attribute a) with
  | some e => exact hins e
  | none =>
    by_cases hlen : allIds.length = 1 ∧ ex.length = 1
    · rw [if_pos hlen]
      exact hins (ex.headD "")
    · rw [if_neg hlen]
      cases h2 : ex.find? (fun e =>
          (strContains (normalize_attribute a) "id" &&
            strContains (normalize_attribute e) "id") &&
          (decide ((normalize_attribute e).data <:+: (normalize_attribute a).data) ||
            decide ((normalize_attribute a).data <:+: (normalize_attribute e).data))) with
      | some e => exact hins e
      | none =>
        by_cases h3 : st.2.contains a
        · rw [if_pos h3]
          exact hst
        · rw [if_neg h3]
          exact hst

theorem keysAllId_goodMap {m : SMap} (h : KeysAllId m) : GoodMap m := by
  intro p₁ h₁ p₂ h₂ _ hid
  rcases hid with hid | hid
  · rw [h p₁ h₁] at hid
    exact absurd hid (by simp)
  · rw [h p₂ h₂] at hid
    exact absurd hid (by simp)

theorem bestRegularMatch_sound {mapping : SMap} {na : String} {nv : Option PyVal}
    {gt : String → Option String} :
    ∀ (es : List String) (best : Option String × ℚ) (e : String),
      (bestRegularMatch mapping na nv gt es best).1 = some e →
      best.1 = some e ∨
        ((smapValues mapping).map (fun m => normalize_attribute m)).contains
          (normalize_attribute e) = false := by
  intro es
  induction es with
  | nil =>
    intro best e h
    exact Or.inl h
  | cons c cs ih =>
    intro best e h
    rw [bestRegularMatch] at h
    by_cases hc : ((smapValues mapping).map (fun m => normalize_attribute m)).contains
        (normalize_attribute c) = true
    · rw [if_pos hc] at h
      exact ih best e h
    · rw [if_neg hc] at h
      by_cases hlt : best.2 < calculate_attribute_similarity na c nv (gt c)
      · rw [if_pos hlt] at h
        rcases ih _ e h with h' | h'
        · simp only [Option.some.injEq] at h'
          right
          rw [← h']
          simpa using hc
        · exact Or.inr h'
      · rw [if_neg hlt] at h
        exact ih best e h

theorem goodMap_insert_fresh {m : SMap} {k v : String}
    (hm : GoodMap m)
    (hv : ((smapValues m).map (fun x => normalize_attribute x)).contains
      (normalize_attribute v) = false) :
    GoodMap (smapInsert m k v) := by
  intro p₁ h₁ p₂ h₂ hne hid
  have hfresh : ∀ q ∈ m, normalize_attribute v ≠ normalize_attribute q.2 := by
    intro q hq heq
    have hmem : normalize_attribute v ∈ ((smapValues m).map (fun x => normalize_attribute x)) := by
      rw [heq]
      exact List.mem_map.mpr ⟨q.2, List.mem_map.mpr ⟨q, hq, rfl⟩, rfl⟩
    have htrue : ((smapValues m).map (fun x => normalize_attribute x)).contains
        (normalize_attribute v) = true := List.elem_eq_true_of_mem hmem
    rw [htrue] at hv
    simp at hv
  rcases mem_smapInsert h₁ with hp₁ | hp₁ <;> rcases mem_smapInsert h₂ with hp₂ | hp₂
  · exact hm p₁ hp₁ p₂ hp₂ hne hid
  · rw [hp₂]
    intro heq
    exact hfresh p₁ hp₁ heq.symm
  · rw [hp₁]
    intro heq
    exact hfresh p₂ hp₂ heq
  · rw [hp₁, hp₂] at hne
    exact absurd rfl hne

theorem goodMap_matchRegularOne {ex : List String} {sv : String → Option PyVal}
    {gt : String → Option String} {θ : ℚ} {st : SMap × List String} {a : String}
    (hst : GoodMap st.1) :
    GoodMap (matchRegularOne ex sv gt θ st a).1 := by
  unfold matchRegularOne
  cases hb : bestRegularMatch st.1 a (sv a) gt ex (Option.none, 0) with
  | mk bm bs =>
    cases bm with
    | none => exact hst
    | some e =>
      dsimp only
      by_cases hcond : e ≠ "" ∧ θ ≤ bs
      · rw [if_pos hcond]
        rcases bestRegularMatch_sound ex (Option.none, 0) e (by rw [hb]) with h | h
        · exact absurd h (by simp)
        · exact goodMap_insert_fresh hst h
      · rw [if_neg hcond]
        exact hst

theorem goodMap_foldl_regular {ex : List String} {sv : String → Option PyVal}
    {gt : String → Option String} {θ : ℚ} :
    ∀ (l : List String) (st : SMap × List String), GoodMap st.1 →
      GoodMap (l.foldl (matchRegularOne ex sv gt θ) st).1 := by
  intro l
  induction l with
  | nil => intro st h; exact h
  | cons a as ih =>
    intro st h
    rw [List.foldl_cons]
    exact ih _ (goodMap_matchRegularOne h)

theorem keysAllId_foldl_ids {ex allIds : List String} :
    ∀ (l : List String) (st : SMap × List String), KeysAllId st.1 →
      (∀ a ∈ l, is_id_attribute a = true) →
      KeysAllId (l.foldl (matchIdOne ex allIds) st).1 := by
  intro l
  induction l with
  | nil => intro st h _; exact h
  | cons a as ih =>
    intro st h hall
    rw [List.foldl_cons]
    exact ih _ (keysAllId_matchIdOne h (hall a (List.mem_cons_self a as)))
      (fun b hb => hall b (List.mem_cons_of_mem a hb))

theorem goodMap_match_attributes (newAttrs existAttrs : List String)
    (nd : Option (List (List (String × PyVal)))) (et : Option (List (String × String)))
    (θ : ℚ) : GoodMap (match_attributes newAttrs existAttrs nd et θ).1 := by
  unfold match_attributes
  apply goodMap_foldl_regular
  apply keysAllId_goodMap
  apply keysAllId_foldl_ids
  · intro p hp
    simp at hp
  · intro a ha
    exact (List.mem_filter.mp ha).2

/-- C2 (amended): the mapping returned by `match_attributes` is injective
except possibly between two ID attributes: whenever two different new
attributes are mapped to the same existing attribute, both new attributes are
ID attributes (regular matches skip already-claimed targets, ID matches do
not). -/
theorem match_attributes_injective_outside_ids
    (newAttrs existAttrs : List String) (nd : Option (List (List (String × PyVal))))
    (et : Option (List (String × String))) (θ : ℚ) (k1 k2 v : String)
    (h12 : k1 ≠ k2)
    (h1 : smapLookup (match_attributes newAttrs existAttrs nd et θ).1 k1 = some v)
    (h2 : smapLookup (match_attributes newAttrs existAttrs nd et θ).1 k2 = some v) :
    is_id_attribute k1 = true ∧ is_id_attribute k2 = true := by
  have hgood := goodMap_match_attributes newAttrs existAttrs nd et θ
  obtain ⟨p₁, hfind₁, hv₁⟩ := Option.map_eq_some'.mp h1
  obtain ⟨p₂, hfind₂, hv₂⟩ := Option.map_eq_some'.mp h2
  have hmem₁ := List.mem_of_find?_eq_some hfind₁
  have hmem₂ := List.mem_of_find?_eq_some hfind₂
  have hk₁ : p₁.1 = k1 := by
    have := List.find?_some hfind₁
    simpa using this
  have hk₂ : p₂.1 = k2 := by
    have := List.find?_some hfind₂
    simpa using this
  by_contra hcon
  rw [Decidable.not_and_iff_or_not] at hcon
  have hid : is_id_attribute p₁.1 = false ∨ is_id_attribute p₂.1 = false := by
    rw [hk₁, hk₂]
    rcases hcon with h | h
    · exact Or.inl (Bool.not_eq_true _ ▸ (by simpa using h))
    · exact Or.inr (Bool.not_eq_true _ ▸ (by simpa using h))
  exact hgood p₁ hmem₁ p₂ hmem₂ (by rw [hk₁, hk₂]; exact h12) hid
    (by rw [hv₁, hv₂])

/-- C2 witness: instantiating the amended theorem at the counterexample input
(`["id", "user_id"]` against `["user_id"]`, both mapped to `"user_id"`)
confirms that both colliding keys are ID attributes. -/
theorem match_attributes_injective_outside_ids_witness :
    is_id_attribute "id" = true ∧ is_id_attribute "user_id" = true :=
  match_attributes_injective_outside_ids ["id", "user_id"] ["user_id"]
    Option.none Option.none (3/5) "id" "user_id" "user_id"
    (by decide) (by decide) (by decide)

/-! ### C1 -/

unseal Rat.mul Rat.add Rat.inv Rat.sub in
/-- C1 (counterexample): on the catalog with one table `t(a, a2)` and the
duplicated attribute list `["a", "a"]`, the best candidate evaluates to
score 1/2 with an empty `new_fields` (the duplicate key overwrites the
mapping entry without being recorded as a new field), the threshold is 0.6,
and the code decides `evolved_table` where the claim's table demands
`new_table`. -/
theorem c1_counterexample : ¬ C1Claim := by
  intro h
  have hinst := h cexCatalog ["a", "a"] Option.none "t" (1/2) [("a", "a2")] []
    (by decide)
  revert hinst
  decide

theorem half_lt_threshold (n : Nat) : (1 : ℚ)/2 < calculate_dynamic_threshold n := by
  unfold calculate_dynamic_threshold
  split
  · norm_num
  · norm_num

/-- C1 (amended): against the best evaluated candidate, `same_table` iff
`score ≥ threshold` and `new_fields` is empty; `evolved_table` iff that
fails, `score ≥ 0.5` and `|new_fields| ≤ 3` (zero new fields included —
there is no lower bound of 1); `evolved_table_jsonb` iff `score ≥ 0.5` and
`|new_fields| > 3`; and `new_table` iff `score < 0.5`. -/
theorem make_decision_rules (cat : TableCatalog) (newAttributes : List String)
    (newData : Option Rows) (t : String) (score : ℚ) (mapping : SMap)
    (nf : List String)
    (hbest : bestEvaluated cat newAttributes newData = some (t, score, mapping, nf)) :
    ((make_decision cat newAttributes newData).decision = "same_table" ↔
      calculate_dynamic_threshold newAttributes.length ≤ score ∧ nf.length = 0) ∧
    ((make_decision cat newAttributes newData).decision = "evolved_table" ↔
      ¬(calculate_dynamic_threshold newAttributes.length ≤ score ∧ nf.length = 0) ∧
      1/2 ≤ score ∧ nf.length ≤ 3) ∧
    ((make_decision cat newAttributes newData).decision = "evolved_table_jsonb" ↔
      1/2 ≤ score ∧ 3 < nf.length) ∧
    ((make_decision cat newAttributes newData).decision = "new_table" ↔ score < 1/2) := by
  have hth := half_lt_threshold newAttributes.length
  have hne : newAttributes.isEmpty = false := by
    by_contra hc
    rw [Bool.not_eq_false] at hc
    unfold bestEvaluated at hbest
    rw [if_pos hc] at hbest
    exact Option.noConfusion hbest
  have hcand : (get_candidate_tables cat newAttributes 1).isEmpty = false := by
    by_contra hc
    rw [Bool.not_eq_false] at hc
    unfold bestEvaluated at hbest
    rw [if_neg (by simp [hne]), List.isEmpty_iff.mp hc] at hbest
    exact Option.noConfusion hbest
  have hd : make_decision cat newAttributes newData =
      (if calculate_dynamic_threshold newAttributes.length ≤ score ∧ nf.length = 0 then
        ⟨"same_table", some t, mapping, nf, score⟩
      else if 1/2 ≤ score ∧ nf.length ≤ 3 then
        ⟨"evolved_table", some t, mapping, nf, score⟩
      else if 1/2 ≤ score ∧ 3 < nf.length then
        ⟨"evolved_table_jsonb", some t, mapping, nf, score⟩
      else ⟨"new_table", Option.none, [], newAttributes, score⟩ : Decision) := by
    unfold make_decision
    rw [if_neg (by simp [hne]), if_neg (by simp [hcand]), hbest]
  rw [hd]
  by_cases c1 : calculate_dynamic_threshold newAttributes.length ≤ score ∧ nf.length = 0
  · rw [if_pos c1]
    dsimp only
    refine ⟨iff_of_true rfl c1, ?_, ?_, ?_⟩
    · exact iff_of_false (by decide) (fun h' => h'.1 c1)
    · exact iff_of_false (by decide) (fun h' => by omega)
    · exact iff_of_false (by decide)
        (fun h' => absurd (le_trans (le_of_lt hth) c1.1) (not_le_of_lt h'))
  · rw [if_neg c1]
    by_cases c2 : 1/2 ≤ score ∧ nf.length ≤ 3
    · rw [if_pos c2]
      dsimp only
      refine ⟨?_, iff_of_true rfl ⟨c1, c2⟩, ?_, ?_⟩
      · exact iff_of_false (by decide) (fun h' => c1 h')
      · exact iff_of_false (by decide) (fun h' => by omega)
      · exact iff_of_false (by decide) (fun h' => absurd c2.1 (not_le_of_lt h'))
    · rw [if_neg c2]
      by_cases c3 : 1/2 ≤ score ∧ 3 < nf.length
      · rw [if_pos c3]
        dsimp only
        refine ⟨?_, ?_, iff_of_true rfl c3, ?_⟩
        · exact iff_of_false (by decide) (fun h' => by omega)
        · exact iff_of_false (by decide) (fun h' => c2 h'.2)
        · exact iff_of_false (by decide) (fun h' => absurd c3.1 (not_le_of_lt h'))
      · rw [if_neg c3]
        dsimp only
        have hscore : score < 1/2 := by
          by_contra hge
          rw [not_lt] at hge
          rcases le_or_lt nf.length 3 with hnf | hnf
          · exact c2 ⟨hge, hnf⟩
          · exact c3 ⟨hge, hnf⟩
        refine ⟨?_, ?_, ?_, iff_of_true rfl hscore⟩
        · exact iff_of_false (by decide) (fun h' => c1 h')
        · exact iff_of_false (by decide) (fun h' => c2 h'.2)
        · exact iff_of_false (by decide) (fun h' => c3 h')

unseal Rat.mul Rat.add Rat.inv Rat.sub in
/-- C1 witness: the amended rules instantiated at the counterexample input,
where the best candidate scores 1/2 with no new fields and the decision is
`evolved_table` (not `new_table`). -/
theorem make_decision_rules_witness :
    ((make_decision cexCatalog ["a", "a"] Option.none).decision = "same_table" ↔
      calculate_dynamic_threshold (["a", "a"] : List String).length ≤ (1/2 : ℚ) ∧
      ([] : List String).length = 0) ∧
    ((make_decision cexCatalog ["a", "a"] Option.none).decision = "evolved_table" ↔
      ¬(calculate_dynamic_threshold (["a", "a"] : List String).length ≤ (1/2 : ℚ) ∧
        ([] : List String).length = 0) ∧
      1/2 ≤ (1/2 : ℚ) ∧ ([] : List String).length ≤ 3) ∧
    ((make_decision cexCatalog ["a", "a"] Option.none).decision = "evolved_table_jsonb" ↔
      1/2 ≤ (1/2 : ℚ) ∧ 3 < ([] : List String).length) ∧
    ((make_decision cexCatalog ["a", "a"] Option.none).decision = "new_table" ↔
      (1/2 : ℚ) < 1/2) :=
  make_decision_rules cexCatalog ["a", "a"] Option.none "t" (1/2) [("a", "a2")] []
    (by decide)

/-! ### C10 and C8 -/

theorem chunkLoop_fuel_irrelevant (text : List Char) (cs ov : Nat) (hov : ov < cs) :
    ∀ (fuel₁ fuel₂ start : Nat), text.length - start ≤ fuel₁ →
      text.length - start ≤ fuel₂ →
      chunkLoop text cs ov fuel₁ start = chunkLoop text cs ov fuel₂ start := by
  intro fuel₁
  induction fuel₁ with
  | zero =>
    intro fuel₂ start h₁ h₂
    have hge : text.length ≤ start := by omega
    cases fuel₂ with
    | zero => rfl
    | succ f₂ =>
      rw [chunkLoop, chunkLoop, if_neg (by omega)]
  | succ f₁ ih =>
    intro fuel₂ start h₁ h₂
    by_cases hlt : start < text.length
    · have hf₂ : ∃ f, fuel₂ = f + 1 := by
        cases fuel₂ with
        | zero => omega
        | succ f => exact ⟨f, rfl⟩
      obtain ⟨f₂, rfl⟩ := hf₂
      rw [chunkLoop, chunkLoop, if_pos hlt, if_pos hlt]
      by_cases hend : text.length ≤ start + cs
      · rw [if_pos hend, if_pos hend]
      · rw [if_neg hend, if_neg hend]
        rw [ih f₂ (start + cs - ov) (by omega) (by omega)]
    · cases fuel₂ with
      | zero => rw [chunkLoop, chunkLoop, if_neg hlt]
      | succ f₂ => rw [chunkLoop, chunkLoop, if_neg hlt, if_neg hlt]

theorem chunkLoop_len_le (text : List Char) (cs ov : Nat) :
    ∀ (fuel start : Nat), ∀ ch ∈ chunkLoop text cs ov fuel start, ch.length ≤ cs := by
  intro fuel
  induction fuel with
  | zero => intro start ch h; simp [chunkLoop] at h
  | succ f ih =>
    intro start ch h
    rw [chunkLoop] at h
    by_cases hlt : start < text.length
    · rw [if_pos hlt] at h
      by_cases hend : text.length ≤ start + cs
      · rw [if_pos hend] at h
        rw [List.mem_singleton.mp h]
        exact le_trans (List.length_take_le ..) (le_refl _)
      · rw [if_neg hend] at h
        rcases List.mem_cons.mp h with h' | h'
        · rw [h']
          exact List.length_take_le ..
        · exact ih _ ch h'
    · rw [if_neg hlt] at h
      simp at h

theorem chunkLoop_covers (text : List Char) (cs ov : Nat) (hov : ov < cs) :
    ∀ (fuel start : Nat), text.length - start ≤ fuel → start < text.length →
      ∀ i, start ≤ i → i < text.length →
        ∃ s, s ≤ i ∧ i < s + cs ∧ pySlice text s cs ∈ chunkLoop text cs ov fuel start := by
  intro fuel
  induction fuel with
  | zero => intro start h₁ h₂; omega
  | succ f ih =>
    intro start hfuel hlt i hsi hilen
    rw [chunkLoop, if_pos hlt]
    by_cases hend : text.length ≤ start + cs
    · rw [if_pos hend]
      exact ⟨start, hsi, by omega, List.mem_singleton.mpr rfl⟩
    · rw [if_neg hend]
      by_cases hi : i < start + cs
      · exact ⟨start, hsi, hi, List.mem_cons_self _ _⟩
      · have hstep : start + cs - ov ≤ i := by omega
        obtain ⟨s, hs₁, hs₂, hs₃⟩ := ih (start + cs - ov) (by omega) (by omega) i hstep hilen
        exact ⟨s, hs₁, hs₂, List.mem_cons_of_mem _ hs₃⟩

/-- C10: for `chunk_size > 0` and `0 ≤ overlap < chunk_size`,
`simple_character_chunker` terminates (the loop's result is independent of
any sufficient fuel, `|text|` being enough), every returned chunk has length
at most `chunk_size`, and every character position of the input is covered by
the window of some returned chunk. -/
theorem simple_character_chunker_spec (text : List Char) (cs ov : Nat)
    (_hcs : 0 < cs) (hov : ov < cs) :
    (∀ fuel, text.length ≤ fuel →
      chunkLoop text cs ov fuel 0 = chunkLoop text cs ov text.length 0) ∧
    (∀ ch ∈ simple_character_chunker text cs ov, ch.length ≤ cs) ∧
    (∀ i, i < text.length → ∃ s, s ≤ i ∧ i < s + cs ∧
      pySlice text s cs ∈ simple_character_chunker text cs ov) := by
  refine ⟨?_, ?_, ?_⟩
  · intro fuel hfuel
    exact chunkLoop_fuel_irrelevant text cs ov hov fuel text.length 0 (by omega) (by omega)
  · intro ch h
    unfold simple_character_chunker at h
    by_cases hnil : text.isEmpty
    · rw [if_pos hnil] at h
      simp at h
    · rw [if_neg hnil] at h
      by_cases hshort : text.length ≤ cs
      · rw [if_pos hshort] at h
        rw [List.mem_singleton.mp h]
        exact hshort
      · rw [if_neg hshort] at h
        exact chunkLoop_len_le text cs ov text.length 0 ch h
  · intro i hi
    unfold simple_character_chunker
    have hnil : text.isEmpty = false := by
      cases text with
      | nil => simp at hi
      | cons c cs' => rfl
    rw [if_neg (by simp [hnil])]
    by_cases hshort : text.length ≤ cs
    · rw [if_pos hshort]
      refine ⟨0, Nat.zero_le i, by omega, ?_⟩
      have : pySlice text 0 cs = text := by
        unfold pySlice
        rw [List.drop_zero]
        exact List.take_of_length_le hshort
      rw [this]
      exact List.mem_singleton.mpr rfl
    · rw [if_neg hshort]
      exact chunkLoop_covers text cs ov hov text.length 0 (by omega) (by omega) i
        (Nat.zero_le i) hi

/-- C10 witness: chunking an 8-character text with window 5 and overlap 2
yields chunks of length at most 5 covering every position. -/
theorem simple_character_chunker_spec_witness :
    (∀ fuel, ("abcdefgh".data : List Char).length ≤ fuel →
      chunkLoop "abcdefgh".data 5 2 fuel 0 = chunkLoop "abcdefgh".data 5 2
        ("abcdefgh".data : List Char).length 0) ∧
    (∀ ch ∈ simple_character_chunker "abcdefgh".data 5 2, ch.length ≤ 5) ∧
    (∀ i, i < ("abcdefgh".data : List Char).length → ∃ s, s ≤ i ∧ i < s + 5 ∧
      pySlice "abcdefgh".data s 5 ∈ simple_character_chunker "abcdefgh".data 5 2) :=
  simple_character_chunker_spec "abcdefgh".data 5 2 (by decide) (by decide)

/-- C8: the chunk documents produced by `chunk_generator` for one file carry
`chunk_index` values forming exactly the contiguous range `0..n-1`, where `n`
is the number of chunks. -/
theorem chunk_indices_contiguous (text : List Char) (fileId tenantId : String) :
    (chunkDocs text fileId tenantId).map (fun d => d.chunk_index) =
      List.range (simple_character_chunker text 1000 200).length := by
  unfold chunkDocs
  rw [List.map_map]
  have hcomp : ((fun d : ChunkDoc => d.chunk_index) ∘
      (fun p : Nat × List Char => (⟨fileId, tenantId, p.1, p.2, p.2.length⟩ : ChunkDoc))) =
      Prod.fst := rfl
  rw [hcomp]
  exact List.enum_map_fst _

/-- C7 counterexample: a single 801-character text without sentence
terminators is its own (only) sentence, so the summary is the whole text and
exceeds 800 characters — `_build_summary` never truncates. -/
theorem c7_counterexample : ¬ C7Claim := by
  intro h
  have hc := h (List.replicate 801 'a') []
    (List.ne_nil_of_length_pos (by rw [List.length_replicate]; omega))
  revert hc
  set_option maxRecDepth 100000 in decide

theorem splitSentAux_ne_nil (fuel : Nat) (l cur : List Char) :
    splitSentAux fuel l cur ≠ [] := by
  induction fuel generalizing l cur with
  | zero => simp [splitSentAux]
  | succ n ih =>
    cases l with
    | nil => simp [splitSentAux]
    | cons c cs =>
      simp only [splitSentAux]
      split
      · simp
      · exact ih cs (c :: cur)

theorem dropWhile_length_le (p : Char → Bool) (l : List Char) :
    (l.dropWhile p).length ≤ l.length := by
  induction l with
  | nil => simp
  | cons c cs ih =>
    simp only [List.dropWhile_cons]
    split
    · simp only [List.length_cons]; omega
    · simp

theorem joinSpace_take_le (ps : List (List Char)) (n : Nat) :
    (joinSpace (ps.take n)).length ≤ (joinSpace ps).length := by
  induction ps generalizing n with
  | nil => simp
  | cons p ps ih =>
    cases n with
    | zero => simp [joinSpace]
    | succ m =>
      cases ps with
      | nil => simp
      | cons q qs =>
        cases m with
        | zero =>
          simp only [List.take_succ_cons, List.take_zero, joinSpace,
            List.length_append, List.length_cons]
          omega
        | succ k =>
          have h := ih (k + 1)
          simp only [List.take_succ_cons, joinSpace, List.length_append,
            List.length_cons] at *
          omega

theorem joinSpace_splitSentAux_le (fuel : Nat) :
    ∀ (l cur : List Char),
      (joinSpace (splitSentAux fuel l cur)).length ≤ l.length + cur.length := by
  induction fuel with
  | zero => intro l cur; simp [splitSentAux, joinSpace]
  | succ n ih =>
    intro l cur
    cases l with
    | nil => simp [splitSentAux, joinSpace]
    | cons c cs =>
      simp only [splitSentAux]
      split
      · have hne := splitSentAux_ne_nil n (cs.dropWhile isPySpace) []
        obtain ⟨r, rs, hr⟩ := List.exists_cons_of_ne_nil hne
        rw [hr]
        have h1 := ih (cs.dropWhile isPySpace) []
        rw [hr] at h1
        have h2 := dropWhile_length_le isPySpace cs
        simp only [joinSpace, List.length_append, List.length_cons,
          List.length_reverse, List.length_nil] at *
        omega
      · have h1 := ih cs (c :: cur)
        simp only [List.length_cons] at *
        omega

theorem pyStrip_length_le (l : List Char) : (pyStrip l).length ≤ l.length := by
  unfold pyStrip
  simp only [List.length_reverse]
  have h1 := dropWhile_length_le isPySpace l
  have h2 := dropWhile_length_le isPySpace (l.dropWhile isPySpace).reverse
  simp only [List.length_reverse] at h2
  omega

/-- C7 amended: for non-empty text the summary is the first (at most) five
sentence pieces of the stripped text joined by single spaces; it is not
capped at 800 characters, and its length is bounded only by the length of
the text itself. -/
theorem build_summary_first_sentences (text pathName : List Char)
    (h : text ≠ []) :
    build_summary text pathName
      = joinSpace ((splitSentences (pyStrip text)).take 5) ∧
    (build_summary text pathName).length ≤ text.length := by
  have hb : text.isEmpty = false := by simpa using h
  constructor
  · simp [build_summary, hb]
  · have h1 := joinSpace_take_le (splitSentences (pyStrip text)) 5
    have h2 := joinSpace_splitSentAux_le (pyStrip text).length (pyStrip text) []
    have h3 := pyStrip_length_le text
    simp only [build_summary, hb, Bool.false_eq_true, if_false, splitSentences,
      List.length_nil] at *
    omega

/-- C7 witness: on a concrete three-sentence text the summary equals the
joined sentence pieces and is no longer than the text. -/
theorem build_summary_first_sentences_witness :
    build_summary "Hi. There you are. Ok".data []
      = joinSpace ((splitSentences (pyStrip "Hi. There you are. Ok".data)).take 5) ∧
    (build_summary "Hi. There you are. Ok".data []).length ≤
      ("Hi. There you are. Ok".data).length :=
  build_summary_first_sentences "Hi. There you are. Ok".data [] (by decide)

/-- C9: when the embedding writer reports unavailable, text ingestion still
completes whenever extraction, storage resolution and metadata generation
succeed: the envelope has status `completed`, `graph_nodes = []`, and no
recorded error — whatever the chunking outcome. -/
theorem writer_unavailable_still_completes (env : TextPipelineEnv)
    (pathName : String) (raw : List Char) (fid : String)
    (hx : env.extract_full_text = some raw)
    (hp : env.preMeta = Except.ok ())
    (hm : env.meta_generator = Except.ok fid)
    (hw : env.graphAvailable = false) :
    (process_text_file env pathName).status = "completed" ∧
    (process_text_file env pathName).graph_nodes = [] ∧
    (process_text_file env pathName).error = none := by
  have hwe : ∀ (s : List Char) (cts : List (List Char)),
      write_embeddings env fid s cts = Except.ok [] := by
    intro s cts
    unfold write_embeddings
    rw [hw]
    simp
  unfold process_text_file
  rw [hx, hp, hm]
  dsimp only
  refine ⟨rfl, ?_, rfl⟩
  simp only [hwe]

/-- C9 witness: in a concrete environment whose writer is unavailable the
run completes with no graph nodes and no error. -/
theorem writer_unavailable_still_completes_witness :
    (process_text_file c9Env "a.txt").status = "completed" ∧
    (process_text_file c9Env "a.txt").graph_nodes = [] ∧
    (process_text_file c9Env "a.txt").error = none :=
  writer_unavailable_still_completes c9Env "a.txt" "Hello world.".data "f1"
    rfl rfl rfl rfl

/-- C4 counterexample: a `.json` file whose content is malformed makes
`json.load` raise inside `_parse_file`; `classify` has no handler around it,
so the exception propagates and no classification result is returned. -/
theorem c4_counterexample : ¬ C4Claim := by
  intro h
  obtain ⟨r, hr⟩ := h badJson
  have he : classify badJson =
      Except.error "Expecting value: line 1 column 1 (char 0)" := rfl
  rw [he] at hr
  exact Except.noConfusion hr

/-- C4 amended: classification is total only for files whose extension is
unrecognised — there the read falls back to `None` on failure and every
analysis path returns a result; for recognised types, parser exceptions
(malformed JSON/XML/YAML, undecodable text, missing optional libraries)
propagate out of `classify`. -/
theorem classify_unknown_total (f : InputFile)
    (h : detect_file_type (pyLowerStr f.ext) = "unknown") :
    ∃ r, classify f = Except.ok r := by
  have hc : classify f = classifyCore f "unknown" := by
    unfold classify
    rw [h]
  rw [hc]
  unfold classifyCore parse_file
  cases hu : f.unknownRead with
  | none => exact ⟨_, rfl⟩
  | some t => exact ⟨_, rfl⟩

/-- C4 witness: a `.bin` file with plain text content classifies
successfully. -/
theorem classify_unknown_total_witness : ∃ r, classify unkFile = Except.ok r :=
  classify_unknown_total unkFile (by decide)

end Clustro
